import Mathlib

/-!
Verification of the staging-table merge pipeline
(notebook `2a-etl_spark_merge_staging_tables`).

The pipeline is embedded shallowly: a dataframe is a list of rows, a row a
list of (column name, optional value) pairs, in schema order.  A `none` cell
is a SQL null.  The Spark operations used by the notebook (`join ... 'left'`,
`drop`, `withColumnRenamed`, `fillna(v, subset)`, `write.partitionBy`) are
translated operation by operation below; the notebook's own helper
`add_col_prefix` is embedded as `add_col_pfx`.
-/

abbrev ColName := String

/-- A primitive tabular value (the model is untyped: Spark's per-column types
are not tracked, so a numeric fill applies to every listed column). -/
inductive Value where
  | int : Int → Value
  | str : String → Value
deriving DecidableEq, Repr

/-- One dataframe cell; `none` is SQL null. -/
abbrev Cell := Option Value

/-- One dataframe row: column names paired with cells, in schema order. -/
abbrev Row := List (ColName × Cell)

/-- A dataframe: a list of rows (all sharing one schema when well formed). -/
abbrev Table := List Row

/-- Column reference by name (first matching column, as Spark resolves an
unambiguous name); `none` when the column is absent. -/
def lookup : Row → ColName → Cell
  | [], _ => none
  | (n, v) :: rest, c => if n = c then v else lookup rest c

/-- SQL equality of two cells inside a join condition: null compares false. -/
def eqCell : Cell → Cell → Bool
  | some x, some y => decide (x = y)
  | _, _ => false

/-- The column names of a row, in order. -/
def rowNames (r : Row) : List ColName := r.map Prod.fst

/-- All rows of a table carry exactly the schema `s`. -/
def wfTable (s : List ColName) (t : Table) : Prop := ∀ r ∈ t, rowNames r = s

/-- Spark `df.drop(*cols)` on one row: every column whose name is listed is
removed (all occurrences); unknown names are a no-op. -/
def dropRowCols (cols : List ColName) (r : Row) : Row :=
  r.filter (fun p => !(cols.contains p.1))

/-- Spark `df.drop(*cols)`. -/
def dropCols (cols : List ColName) (t : Table) : Table :=
  t.map (dropRowCols cols)

/-- Spark `withColumnRenamed(oldN, newN)` on one row: every column named
`oldN` is renamed to `newN`; values are untouched. -/
def renameRowCol (oldN newN : ColName) (r : Row) : Row :=
  r.map (fun p => if p.1 = oldN then (newN, p.2) else p)

/-- Spark `withColumnRenamed` on a table. -/
def renameCol (oldN newN : ColName) (t : Table) : Table :=
  t.map (renameRowCol oldN newN)

/-- The all-null row over a schema (the right side of an unmatched left join). -/
def nullRowOf (schema : List ColName) : Row :=
  schema.map (fun c => (c, (none : Cell)))

/-- Spark `left.join(right, cond, 'left')`: every left row is kept; it is
paired with each matching right row, or extended with nulls when no right row
matches.  `rightSchema` is the schema of `right` (needed when `right` has no
rows). -/
def leftJoin (left right : Table) (rightSchema : List ColName)
    (pred : Row → Row → Bool) : Table :=
  left.flatMap (fun l =>
    let ms := right.filter (fun r => pred l r)
    if ms.isEmpty then [l ++ nullRowOf rightSchema] else ms.map (fun r => l ++ r))

/-- The notebook's `add_col_prefix(df, update_col_names, prefix, ignore_cols)`:
build the rename map `zip(cols_with_prefix, [prefix+cc ...])` and fold
`withColumnRenamed` over it. -/
def add_col_pfx (df : Table) (update_col_names : List ColName) (pfx : String)
    (ign_cols : List ColName) : Table :=
  let cols_with_pfx := update_col_names.filter (fun cc => !(ign_cols.contains cc))
  let col_rename_map := cols_with_pfx.map (fun cc => (cc, pfx ++ cc))
  col_rename_map.foldl (fun df cc => renameCol cc.1 cc.2 df) df

/-- Spark `fillna(v, subset)` on one row: null cells of the listed columns are
replaced by `v`; other cells are untouched. -/
def fillnaRow (v : Value) (subset : List ColName) (r : Row) : Row :=
  r.map (fun p => if subset.contains p.1 && p.2.isNone then (p.1, some v) else p)

/-- Spark `fillna(v, subset)`. -/
def fillna (v : Value) (subset : List ColName) (t : Table) : Table :=
  t.map (fillnaRow v subset)

/-! ### The loader (cell 2 of the notebook) -/

/-- `drop_meta_cols = ['__null_dask_index__', '__index_level_0__']`. -/
def drop_meta_cols : List ColName := ["__null_dask_index__", "__index_level_0__"]

/-- `spark.read.parquet(... 'arpt_demand').drop(*drop_meta_cols, 'YEAR')`. -/
def load_arpt_demand (t : Table) : Table :=
  dropCols (drop_meta_cols ++ ["YEAR"]) t

/-- `spark.read.parquet(... 'arpt_weather').drop(*drop_meta_cols, 'YEAR')`. -/
def load_arpt_weather (t : Table) : Table :=
  dropCols (drop_meta_cols ++ ["YEAR"]) t

/-- `spark.read.parquet(... 'nas_flights').drop(*drop_meta_cols)`. -/
def load_nas_flights (t : Table) : Table :=
  dropCols drop_meta_cols t

/-- Effect of a `drop` on a schema (loaded `.columns`). -/
def loadSchema (dropped : List ColName) (s : List ColName) : List ColName :=
  s.filter (fun c => !(dropped.contains c))

/-! ### The merger (cell 3 of the notebook) -/

/-- Join keys dropped after each demand join. -/
def demandKeys : List ColName := ["ARPT_NAME", "DT_LOCAL_QTHR"]

/-- Join keys dropped after each weather join. -/
def weatherKeys : List ColName := ["ARPT_NAME", "DT_LOCAL_HR"]

/-- Join condition of the ORIGIN demand join. -/
def predOriginDemand (l r : Row) : Bool :=
  eqCell (lookup l "ORIGIN") (lookup r "ARPT_NAME") &&
  eqCell (lookup l "DEP_TIME_DT_LOCAL_QTHR") (lookup r "DT_LOCAL_QTHR")

/-- Join condition of the DEST demand join. -/
def predDestDemand (l r : Row) : Bool :=
  eqCell (lookup l "DEST") (lookup r "ARPT_NAME") &&
  eqCell (lookup l "ARR_TIME_DT_LOCAL_QTHR") (lookup r "DT_LOCAL_QTHR")

/-- Join condition of the ORIGIN weather join. -/
def predOriginWeather (l r : Row) : Bool :=
  eqCell (lookup l "ORIGIN") (lookup r "ARPT_NAME") &&
  eqCell (lookup l "DEP_TIME_DT_LOCAL_HR") (lookup r "DT_LOCAL_HR")

/-- Join condition of the DEST weather join. -/
def predDestWeather (l r : Row) : Bool :=
  eqCell (lookup l "DEST") (lookup r "ARPT_NAME") &&
  eqCell (lookup l "ARR_TIME_DT_LOCAL_HR") (lookup r "DT_LOCAL_HR")

/-- One merge stage: join, drop the contributed join keys, rename the
remaining contributed columns with the directional prefix (the notebook
passes the attribute table's full `.columns` and ignores the keys). -/
def mergeStep (flights attrTbl : Table) (attrSchema keys : List ColName)
    (pfx : String) (pred : Row → Row → Bool) : Table :=
  add_col_pfx (dropCols keys (leftJoin flights attrTbl attrSchema pred))
    attrSchema pfx keys

/-- `nas_flights_mg` after the four left joins (ORIGIN demand, DEST demand,
ORIGIN weather, DEST weather), before column cleaning.  `ds`/`ws` are the
loaded `.columns` of the demand and weather tables. -/
def nas_flights_mg (ds ws : List ColName) (flights demand weather : Table) : Table :=
  let m1 := mergeStep flights demand ds demandKeys "ORIGIN_" predOriginDemand
  let m2 := mergeStep m1 demand ds demandKeys "DEST_" predDestDemand
  let m3 := mergeStep m2 weather ws weatherKeys "ORIGIN_" predOriginWeather
  mergeStep m3 weather ws weatherKeys "DEST_" predDestWeather

/-- `arpt_demand_attr_cols`: demand columns minus YEAR and the join keys,
under both directional prefixes. -/
def arpt_demand_attr_cols (ds : List ColName) : List ColName :=
  let base := ds.filter (fun cc => !(["YEAR", "ARPT_NAME", "DT_LOCAL_QTHR"].contains cc))
  ["ORIGIN_", "DEST_"].flatMap (fun pfx => base.map (fun dcols => pfx ++ dcols))

/-- `od_remove_cols`: bucket helper columns under both directional prefixes. -/
def od_remove_cols : List ColName :=
  ["ORIGIN_", "DEST_"].flatMap (fun pfix => ["DT_LOCAL_QTHR", "DT_LOCAL_HR"].map (fun cc => pfix ++ cc))

/-- `ad_remove_cols`: local-time derived columns under ARR_/DEP_. -/
def ad_remove_cols : List ColName :=
  ["ARR_", "DEP_"].flatMap (fun pfix =>
    ["TIME_DT_LOCAL", "TIME_DT_LOCAL_DAY", "TIME_DT_LOCAL_HR", "TIME_DT_LOCAL_QTHR"].map
      (fun cc => pfix ++ cc))

/-- The cleaning stage: `fillna(0, subset=arpt_demand_attr_cols)` then
`drop(*(ad_remove_cols + od_remove_cols))`. -/
def clean_table (ds : List ColName) (t : Table) : Table :=
  dropCols (ad_remove_cols ++ od_remove_cols)
    (fillna (.int 0) (arpt_demand_attr_cols ds) t)

/-- The whole transformation of the notebook: load the three tables, run the
four joins, fill and prune.  `ds`/`ws` are the raw parquet `.columns` of the
demand and weather tables (the flight schema is never consulted by the code). -/
def full_pipeline (ds ws : List ColName) (ft dt wt : Table) : Table :=
  let dsL := loadSchema (drop_meta_cols ++ ["YEAR"]) ds
  let wsL := loadSchema (drop_meta_cols ++ ["YEAR"]) ws
  clean_table dsL
    (nas_flights_mg dsL wsL (load_nas_flights ft) (load_arpt_demand dt)
      (load_arpt_weather wt))

/-! ### The writer -/

/-- `coalesce(n)` only re-buckets physical partitions; the logical rows are
unchanged (physical file layout is outside this model). -/
def coalesce (_n : Nat) (t : Table) : Table := t

/-- The distinct `YYYYMM` partition keys of a table, in first-seen order. -/
def writeKeys (t : Table) : List Cell :=
  (t.map (fun r => lookup r "YYYYMM")).dedup

/-- `write.mode('overwrite').partitionBy('YYYYMM')`: the previous output
directory content `prev` is discarded (overwrite), and the rows are grouped
by their `YYYYMM` cell. -/
def write_partitioned (_prev : List (Cell × Table)) (t : Table) : List (Cell × Table) :=
  (writeKeys t).map (fun k => (k, t.filter (fun r => decide (lookup r "YYYYMM" = k))))

/-- The notebook's write call on the cleaned merged table. -/
def write_output (prev : List (Cell × Table)) (ds ws : List ColName)
    (ft dt wt : Table) : List (Cell × Table) :=
  write_partitioned prev (coalesce 4 (full_pipeline ds ws ft dt wt))

/-! ### The output-directory preparation (cell 1 of the notebook) -/

/-- State of the output directory: `none` when absent, `some es` when present
with entries `es`. -/
abbrev DirState := Option (List String)

/-- `os.makedirs(dir, exist_ok=True)`: create when absent, never fail. -/
def makedirs_exist_ok : DirState → DirState
  | none => some []
  | some es => some es

/-- `shutil.rmtree(dir)`: recursively delete; raises when the directory is
absent. -/
def rmtree : DirState → Except Unit DirState
  | some _ => .ok none
  | none => .error ()

/-- `try: shutil.rmtree(dir) except: pass`. -/
def try_rmtree (s : DirState) : DirState :=
  match rmtree s with
  | .ok s' => s'
  | .error _ => s

/-- `os.mkdir(dir)`: create; raises when the directory already exists. -/
def mkdir : DirState → Except Unit DirState
  | none => .ok (some [])
  | some _ => .error ()

/-- The notebook's preparation sequence: `os.makedirs(..., exist_ok=True)`,
then `try: shutil.rmtree(...) except: pass`, then `os.mkdir(...)`. -/
def prepare_output_dir (s : DirState) : Except Unit DirState :=
  mkdir (try_rmtree (makedirs_exist_ok s))

/-! ### Schema-level mirror of the operations -/

/-- Effect of `drop` on a list of column names. -/
def dropNames (cols : List ColName) (s : List ColName) : List ColName :=
  s.filter (fun c => !(cols.contains c))

/-- Effect of `withColumnRenamed` on a list of column names. -/
def renameName (oldN newN : ColName) (s : List ColName) : List ColName :=
  s.map (fun c => if c = oldN then newN else c)

/-- The net renaming applied to one column name by a prefix pass over the
attribute names `attrs` (no cascade assumed). -/
def renFn (attrs : List ColName) (pfx : String) (n : ColName) : ColName :=
  if attrs.contains n then pfx ++ n else n

/-- Effect of `add_col_pfx` on a list of column names. -/
def pfxNames (update : List ColName) (pfx : String) (ign : List ColName)
    (s : List ColName) : List ColName :=
  ((update.filter (fun cc => !(ign.contains cc))).map (fun cc => (cc, pfx ++ cc))).foldl
    (fun s cc => renameName cc.1 cc.2 s) s

/-- Effect of one `mergeStep` on the left schema. -/
def mergeStepNames (s attrSchema keys : List ColName) (pfx : String) : List ColName :=
  pfxNames attrSchema pfx keys (dropNames keys (s ++ attrSchema))

/-- Effect of the four joins on the flight schema. -/
def mgNames (ds ws s : List ColName) : List ColName :=
  mergeStepNames
    (mergeStepNames
      (mergeStepNames (mergeStepNames s ds demandKeys "ORIGIN_") ds demandKeys "DEST_")
      ws weatherKeys "ORIGIN_")
    ws weatherKeys "DEST_"

/-- Effect of the whole pipeline on the flight schema (`ds`, `ws`, `s` are the
loaded schemas here). -/
def pipelineNames (ds ws s : List ColName) : List ColName :=
  dropNames (ad_remove_cols ++ od_remove_cols) (mgNames ds ws s)

/-- Demand attribute columns as the join stages see them (loaded schema minus
the demand join keys). -/
def dAttrs (ds : List ColName) : List ColName :=
  ds.filter (fun cc => !(demandKeys.contains cc))

/-- Weather attribute columns as the join stages see them. -/
def wAttrs (ws : List ColName) : List ColName :=
  ws.filter (fun cc => !(weatherKeys.contains cc))

/-! ### String-prefix facts -/

theorem str_pfx_cancel {p a b : String} (h : p ++ a = p ++ b) : a = b := by
  have hd := congrArg String.data h
  rw [String.data_append, String.data_append] at hd
  exact String.ext (List.append_cancel_left hd)

theorem head_of_append {p : String} {c : Char} (a : String)
    (hc : p.data.head? = some c) : (p ++ a).data.head? = some c := by
  rw [String.data_append]
  cases hp : p.data with
  | nil => rw [hp] at hc; simp at hc
  | cons h t => rw [hp] at hc; simpa using hc

theorem append_ne_append {p q : String} {c d : Char} (a b : String)
    (hp : p.data.head? = some c) (hq : q.data.head? = some d) (hcd : c ≠ d) :
    p ++ a ≠ q ++ b := by
  intro h
  have h1 := head_of_append a hp
  have h2 := head_of_append b hq
  rw [h, h2] at h1
  injection h1 with hh
  exact hcd hh.symm

theorem append_ne_lit {p y : String} {c : Char} (a : String)
    (hp : p.data.head? = some c) (hy : y.data.head? ≠ some c) : p ++ a ≠ y := by
  intro h
  exact hy (by rw [← h, head_of_append a hp])

/-! ### Row/schema simulation lemmas -/

theorem rowNames_append (a b : Row) : rowNames (a ++ b) = rowNames a ++ rowNames b :=
  List.map_append _ a b

theorem rowNames_dropRowCols (cols : List ColName) (r : Row) :
    rowNames (dropRowCols cols r) = dropNames cols (rowNames r) := by
  induction r with
  | nil => rfl
  | cons p r ih =>
    simp only [dropRowCols, dropNames, rowNames, List.filter_cons, List.map_cons] at ih ⊢
    cases hc : (cols.contains p.1) with
    | true => simpa [hc] using ih
    | false => simpa [hc] using ih

theorem rowNames_renameRowCol (oldN newN : ColName) (r : Row) :
    rowNames (renameRowCol oldN newN r) = renameName oldN newN (rowNames r) := by
  induction r with
  | nil => rfl
  | cons p r ih =>
    by_cases h : p.1 = oldN <;>
      simp [renameRowCol, renameName, rowNames, h] at ih ⊢ <;> exact ih

theorem rowNames_nullRowOf (s : List ColName) : rowNames (nullRowOf s) = s := by
  induction s with
  | nil => rfl
  | cons c s ih => simpa [nullRowOf, rowNames] using ih

theorem rowNames_fillnaRow (v : Value) (subset : List ColName) (r : Row) :
    rowNames (fillnaRow v subset r) = rowNames r := by
  induction r with
  | nil => rfl
  | cons p r ih =>
    simp only [fillnaRow, rowNames, List.map_cons] at ih ⊢
    cases hc : (subset.contains p.1 && p.2.isNone) with
    | true => simpa [hc] using ih
    | false => simpa [hc] using ih

theorem renFn_cons_eq (l : List ColName) (pfx : String) (a : ColName)
    (hna : (pfx ++ a) ∉ l) (c : ColName) :
    renFn l pfx (if c = a then pfx ++ a else c) = renFn (a :: l) pfx c := by
  by_cases hca : c = a
  · subst hca
    simp [renFn, hna]
  · simp [renFn, hca]

theorem foldl_renameName_eq_map (pfx : String) :
    ∀ (attrs : List ColName), (∀ c ∈ attrs, (pfx ++ c) ∉ attrs) →
      ∀ (s : List ColName),
        (attrs.map (fun cc => (cc, pfx ++ cc))).foldl (fun s cc => renameName cc.1 cc.2 s) s
          = s.map (renFn attrs pfx)
  | [], _, s => by
    simp only [List.map_nil, List.foldl_nil]
    exact ((List.map_congr_left (fun c _ => by simp [renFn, id])).trans (List.map_id s)).symm
  | a :: l, hnc, s => by
    have hnc' : ∀ c ∈ l, (pfx ++ c) ∉ l := fun c hc hm =>
      hnc c (List.mem_cons_of_mem a hc) (List.mem_cons_of_mem a hm)
    have hna : (pfx ++ a) ∉ l := fun hm =>
      hnc a (List.mem_cons_self a l) (List.mem_cons_of_mem a hm)
    rw [List.map_cons, List.foldl_cons,
        foldl_renameName_eq_map pfx l hnc' (renameName a (pfx ++ a) s)]
    unfold renameName
    rw [List.map_map]
    exact List.map_congr_left (fun c _ => renFn_cons_eq l pfx a hna c)

theorem renameRowCol_map_pair (l : List ColName) (pfx : String) (a : ColName)
    (hna : (pfx ++ a) ∉ l) (r : Row) :
    (renameRowCol a (pfx ++ a) r).map (fun p => (renFn l pfx p.1, p.2))
      = r.map (fun p => (renFn (a :: l) pfx p.1, p.2)) := by
  unfold renameRowCol
  rw [List.map_map]
  refine List.map_congr_left (fun p _ => ?_)
  by_cases hca : p.1 = a
  · simp only [Function.comp, hca, if_pos rfl]
    simp [renFn, hna]
  · simp only [Function.comp, if_neg hca]
    simp [renFn, hca]

theorem foldl_renameCol_eq_map (pfx : String) :
    ∀ (attrs : List ColName), (∀ c ∈ attrs, (pfx ++ c) ∉ attrs) →
      ∀ (t : Table),
        (attrs.map (fun cc => (cc, pfx ++ cc))).foldl (fun df cc => renameCol cc.1 cc.2 df) t
          = t.map (fun r => r.map (fun p => (renFn attrs pfx p.1, p.2)))
  | [], _, t => by
    simp [renFn]
  | a :: l, hnc, t => by
    have hnc' : ∀ c ∈ l, (pfx ++ c) ∉ l := fun c hc hm =>
      hnc c (List.mem_cons_of_mem a hc) (List.mem_cons_of_mem a hm)
    have hna : (pfx ++ a) ∉ l := fun hm =>
      hnc a (List.mem_cons_self a l) (List.mem_cons_of_mem a hm)
    rw [List.map_cons, List.foldl_cons,
        foldl_renameCol_eq_map pfx l hnc' (renameCol a (pfx ++ a) t)]
    unfold renameCol
    rw [List.map_map]
    exact List.map_congr_left (fun r _ => renameRowCol_map_pair l pfx a hna r)

/-- Under a cascade-free rename list, the notebook's rename fold acts as one
simultaneous renaming of every matching column name. -/
theorem add_col_pfx_eq_map (t : Table) (update : List ColName) (pfx : String)
    (ign : List ColName)
    (hnc : ∀ c ∈ update.filter (fun cc => !(ign.contains cc)),
      (pfx ++ c) ∉ update.filter (fun cc => !(ign.contains cc))) :
    add_col_pfx t update pfx ign
      = t.map (fun r => r.map
          (fun p => (renFn (update.filter (fun cc => !(ign.contains cc))) pfx p.1, p.2))) :=
  foldl_renameCol_eq_map pfx _ hnc t

theorem pfxNames_eq_map (s : List ColName) (update : List ColName) (pfx : String)
    (ign : List ColName)
    (hnc : ∀ c ∈ update.filter (fun cc => !(ign.contains cc)),
      (pfx ++ c) ∉ update.filter (fun cc => !(ign.contains cc))) :
    pfxNames update pfx ign s
      = s.map (renFn (update.filter (fun cc => !(ign.contains cc))) pfx) :=
  foldl_renameName_eq_map pfx _ hnc s

/-! ### Join membership and well-formedness -/

theorem mem_leftJoin {left right : Table} {s : List ColName} {pred : Row → Row → Bool}
    {r : Row} (h : r ∈ leftJoin left right s pred) :
    ∃ l ∈ left, (r = l ++ nullRowOf s) ∨ ∃ rr ∈ right, pred l rr = true ∧ r = l ++ rr := by
  rcases List.mem_flatMap.mp h with ⟨l, hl, hr⟩
  by_cases he : (right.filter (fun x => pred l x)).isEmpty
  · refine ⟨l, hl, Or.inl ?_⟩
    simp only [he, if_pos] at hr
    simpa using hr
  · simp only [he, if_neg, Bool.false_eq_true, not_false_iff] at hr
    rcases List.mem_map.mp hr with ⟨rr, hrr, heq⟩
    have hm := List.mem_filter.mp hrr
    exact ⟨l, hl, Or.inr ⟨rr, hm.1, hm.2, heq.symm⟩⟩

theorem wfTable_leftJoin {ls s : List ColName} {left right : Table}
    {pred : Row → Row → Bool} (hl : wfTable ls left) (hr : wfTable s right) :
    wfTable (ls ++ s) (leftJoin left right s pred) := by
  intro r hmem
  rcases mem_leftJoin hmem with ⟨l, hlm, hcase⟩
  rcases hcase with hnull | ⟨rr, hrm, _, heq⟩
  · rw [hnull, rowNames_append, rowNames_nullRowOf, hl l hlm]
  · rw [heq, rowNames_append, hl l hlm, hr rr hrm]

theorem wfTable_dropCols {s : List ColName} {t : Table} (cols : List ColName)
    (h : wfTable s t) : wfTable (dropNames cols s) (dropCols cols t) := by
  intro r hmem
  rcases List.mem_map.mp hmem with ⟨r', hr', heq⟩
  rw [← heq, rowNames_dropRowCols, h r' hr']

theorem wfTable_fillna {s : List ColName} {t : Table} (v : Value)
    (subset : List ColName) (h : wfTable s t) : wfTable s (fillna v subset t) := by
  intro r hmem
  rcases List.mem_map.mp hmem with ⟨r', hr', heq⟩
  rw [← heq, rowNames_fillnaRow, h r' hr']

theorem wfTable_renameCol {s : List ColName} {t : Table} (o n : ColName)
    (h : wfTable s t) : wfTable (renameName o n s) (renameCol o n t) := by
  intro r hmem
  rcases List.mem_map.mp hmem with ⟨r', hr', heq⟩
  rw [← heq, rowNames_renameRowCol, h r' hr']

theorem wfTable_foldl_rename (pairs : List (ColName × ColName)) :
    ∀ {s : List ColName} {t : Table}, wfTable s t →
      wfTable (pairs.foldl (fun s cc => renameName cc.1 cc.2 s) s)
        (pairs.foldl (fun df cc => renameCol cc.1 cc.2 df) t) := by
  induction pairs with
  | nil => intro s t h; exact h
  | cons a l ih =>
    intro s t h
    exact ih (wfTable_renameCol a.1 a.2 h)

theorem wfTable_add_col_pfx {s : List ColName} {t : Table} (update : List ColName)
    (pfx : String) (ign : List ColName) (h : wfTable s t) :
    wfTable (pfxNames update pfx ign s) (add_col_pfx t update pfx ign) :=
  wfTable_foldl_rename _ h

theorem wfTable_mergeStep {ls as : List ColName} {flights attrTbl : Table}
    (keys : List ColName) (pfx : String) (pred : Row → Row → Bool)
    (hf : wfTable ls flights) (ha : wfTable as attrTbl) :
    wfTable (mergeStepNames ls as keys pfx) (mergeStep flights attrTbl as keys pfx pred) :=
  wfTable_add_col_pfx as pfx keys (wfTable_dropCols keys (wfTable_leftJoin hf ha))

theorem wfTable_nas_flights_mg {fs ds ws : List ColName}
    {flights demand weather : Table} (hf : wfTable fs flights)
    (hd : wfTable ds demand) (hw : wfTable ws weather) :
    wfTable (mgNames ds ws fs) (nas_flights_mg ds ws flights demand weather) :=
  wfTable_mergeStep weatherKeys "DEST_" predDestWeather
    (wfTable_mergeStep weatherKeys "ORIGIN_" predOriginWeather
      (wfTable_mergeStep demandKeys "DEST_" predDestDemand
        (wfTable_mergeStep demandKeys "ORIGIN_" predOriginDemand hf hd) hd) hw) hw

theorem wfTable_full_pipeline {fs ds ws : List ColName} {ft dt wt : Table}
    (hf : wfTable fs ft) (hd : wfTable ds dt) (hw : wfTable ws wt) :
    wfTable
      (pipelineNames (loadSchema (drop_meta_cols ++ ["YEAR"]) ds)
        (loadSchema (drop_meta_cols ++ ["YEAR"]) ws)
        (loadSchema drop_meta_cols fs))
      (full_pipeline ds ws ft dt wt) :=
  wfTable_dropCols _
    (wfTable_fillna _ _
      (wfTable_nas_flights_mg (wfTable_dropCols _ hf) (wfTable_dropCols _ hd)
        (wfTable_dropCols _ hw)))

/-! ### Counting column names through the stages -/

theorem count_filter_eq (p : ColName → Bool) (n : ColName) (l : List ColName) :
    (l.filter p).count n = if p n then l.count n else 0 := by
  induction l with
  | nil => simp
  | cons a l ih =>
    by_cases han : a = n
    · subst han
      by_cases hpa : p a <;> simp [List.filter_cons, hpa, List.count_cons, ih]
    · have hban : (a == n) = false := beq_false_of_ne han
      by_cases hpa : p a <;>
        simp [List.filter_cons, hpa, List.count_cons, ih, hban]

theorem count_dropNames (cols : List ColName) (n : ColName) (s : List ColName) :
    (dropNames cols s).count n = if cols.contains n then 0 else s.count n := by
  unfold dropNames
  rw [count_filter_eq]
  cases hc : cols.contains n <;> simp [hc]

theorem renFn_pos {attrs : List ColName} {a : ColName} (pfx : String)
    (h : a ∈ attrs) : renFn attrs pfx a = pfx ++ a := by simp [renFn, h]

theorem renFn_neg {attrs : List ColName} {a : ColName} (pfx : String)
    (h : a ∉ attrs) : renFn attrs pfx a = a := by simp [renFn, h]

theorem count_map_renFn_miss (attrs : List ColName) (pfx : String) (n : ColName)
    (l : List ColName) (h1 : n ∉ attrs) (h2 : ∀ c ∈ attrs, pfx ++ c ≠ n) :
    (l.map (renFn attrs pfx)).count n = l.count n := by
  induction l with
  | nil => rfl
  | cons a l ih =>
    rw [List.map_cons, List.count_cons, List.count_cons, ih]
    congr 1
    by_cases hm : a ∈ attrs
    · have h3 : renFn attrs pfx a = pfx ++ a := by simp [renFn, hm]
      have h4 : (pfx ++ a) ≠ n := h2 a hm
      have h5 : a ≠ n := fun e => h1 (e ▸ hm)
      rw [h3, beq_false_of_ne h4, beq_false_of_ne h5]
    · have h3 : renFn attrs pfx a = a := by simp [renFn, hm]
      rw [h3]

theorem count_map_renFn_self (attrs : List ColName) (pfx : String) (C : ColName)
    (l : List ColName) (hC : C ∈ attrs) (h2 : ∀ x ∈ attrs, pfx ++ x ≠ C) :
    (l.map (renFn attrs pfx)).count C = 0 := by
  rw [List.count_eq_zero]
  intro hmem
  rcases List.mem_map.mp hmem with ⟨a, ha, hae⟩
  by_cases hm : a ∈ attrs
  · exact h2 a hm (by simpa [renFn, hm] using hae)
  · have h3 : renFn attrs pfx a = a := by simp [renFn, hm]
    rw [h3] at hae
    exact hm (hae ▸ hC)

theorem count_map_renFn_hit (attrs : List ColName) (pfx : String) (C : ColName)
    (l : List ColName) (hC : C ∈ attrs) (hnc : (pfx ++ C) ∉ attrs) :
    (l.map (renFn attrs pfx)).count (pfx ++ C) = l.count C + l.count (pfx ++ C) := by
  induction l with
  | nil => rfl
  | cons a l ih =>
    rw [List.map_cons, List.count_cons, List.count_cons, List.count_cons, ih]
    have hCne : C ≠ pfx ++ C := fun e => hnc (e ▸ hC)
    by_cases haC : a = C
    · rw [haC, renFn_pos pfx hC, beq_false_of_ne hCne]
      simp
      omega
    · by_cases haP : a = pfx ++ C
      · rw [haP, renFn_neg pfx hnc, beq_false_of_ne (fun e : pfx ++ C = C => hCne e.symm)]
        simp
        omega
      · have hne2 : renFn attrs pfx a ≠ pfx ++ C := by
          by_cases hm : a ∈ attrs
          · rw [renFn_pos pfx hm]
            intro e
            exact haC (str_pfx_cancel e)
          · rw [renFn_neg pfx hm]
            exact haP
        rw [beq_false_of_ne hne2, beq_false_of_ne haC, beq_false_of_ne haP]
        simp

theorem mem_attr_not_key {attr keys : List ColName} {c : ColName}
    (h : c ∈ attr.filter (fun cc => !(keys.contains cc))) : keys.contains c = false := by
  have := (List.mem_filter.mp h).2
  simpa using this

theorem mergeStepNames_eq_map (s attr keys : List ColName) (pfx : String)
    (hnc : ∀ c ∈ attr.filter (fun cc => !(keys.contains cc)),
      (pfx ++ c) ∉ attr.filter (fun cc => !(keys.contains cc))) :
    mergeStepNames s attr keys pfx
      = (dropNames keys (s ++ attr)).map
          (renFn (attr.filter (fun cc => !(keys.contains cc))) pfx) :=
  pfxNames_eq_map _ _ _ _ hnc

theorem count_mergeStepNames_miss (s attr keys : List ColName) (pfx : String)
    (n : ColName)
    (hnc : ∀ c ∈ attr.filter (fun cc => !(keys.contains cc)),
      (pfx ++ c) ∉ attr.filter (fun cc => !(keys.contains cc)))
    (hA : n ∉ attr.filter (fun cc => !(keys.contains cc)))
    (hfresh : ∀ c ∈ attr.filter (fun cc => !(keys.contains cc)), pfx ++ c ≠ n) :
    (mergeStepNames s attr keys pfx).count n
      = if keys.contains n then 0 else s.count n + attr.count n := by
  rw [mergeStepNames_eq_map s attr keys pfx hnc,
      count_map_renFn_miss _ _ _ _ hA hfresh, count_dropNames]
  cases hk : keys.contains n <;> simp [hk, List.count_append]

theorem count_mergeStepNames_self (s attr keys : List ColName) (pfx : String)
    (C : ColName)
    (hnc : ∀ c ∈ attr.filter (fun cc => !(keys.contains cc)),
      (pfx ++ c) ∉ attr.filter (fun cc => !(keys.contains cc)))
    (hC : C ∈ attr.filter (fun cc => !(keys.contains cc)))
    (hfig : ∀ x ∈ attr.filter (fun cc => !(keys.contains cc)), pfx ++ x ≠ C) :
    (mergeStepNames s attr keys pfx).count C = 0 := by
  rw [mergeStepNames_eq_map s attr keys pfx hnc]
  exact count_map_renFn_self _ _ _ _ hC hfig

theorem count_mergeStepNames_hit (s attr keys : List ColName) (pfx : String)
    (C : ColName)
    (hnc : ∀ c ∈ attr.filter (fun cc => !(keys.contains cc)),
      (pfx ++ c) ∉ attr.filter (fun cc => !(keys.contains cc)))
    (hC : C ∈ attr.filter (fun cc => !(keys.contains cc)))
    (hkP : keys.contains (pfx ++ C) = false) :
    (mergeStepNames s attr keys pfx).count (pfx ++ C)
      = (s.count C + attr.count C) + (s.count (pfx ++ C) + attr.count (pfx ++ C)) := by
  rw [mergeStepNames_eq_map s attr keys pfx hnc,
      count_map_renFn_hit _ _ _ _ hC (hnc C hC), count_dropNames, count_dropNames,
      mem_attr_not_key hC, hkP]
  simp [List.count_append]

/-! ### Concrete example tables (used as witnesses) -/

/-- Example raw flight row (one metadata column, join keys, leakage columns). -/
def exFlightRow : Row :=
  [("__index_level_0__", some (.int 0)), ("FL_ID", some (.int 100)),
   ("ORIGIN", some (.str "JFK")), ("DEST", some (.str "LAX")),
   ("DEP_TIME_DT_LOCAL_QTHR", some (.int 1)), ("ARR_TIME_DT_LOCAL_QTHR", some (.int 2)),
   ("DEP_TIME_DT_LOCAL_HR", some (.int 10)), ("ARR_TIME_DT_LOCAL_HR", some (.int 11)),
   ("DEP_TIME_DT_LOCAL", some (.int 1000)), ("ARR_TIME_DT_LOCAL", some (.int 1100)),
   ("YYYYMM", some (.int 202001))]

/-- Example raw demand row matching `exFlightRow` on the origin side. -/
def exDemandRow : Row :=
  [("__null_dask_index__", some (.int 0)), ("ARPT_NAME", some (.str "JFK")),
   ("DT_LOCAL_QTHR", some (.int 1)), ("YEAR", some (.int 2020)), ("DMD_CNT", some (.int 7))]

/-- Example raw weather row matching `exFlightRow` on the origin side. -/
def exWeatherRow : Row :=
  [("ARPT_NAME", some (.str "JFK")), ("DT_LOCAL_HR", some (.int 10)), ("TEMP", some (.int 20))]

/-- Raw columns of the example flight table. -/
def exFlightSchema : List ColName := rowNames exFlightRow

/-- Raw columns of the example demand table. -/
def exDemandSchema : List ColName :=
  ["__null_dask_index__", "ARPT_NAME", "DT_LOCAL_QTHR", "YEAR", "DMD_CNT"]

/-- Raw columns of the example weather table. -/
def exWeatherSchema : List ColName := ["ARPT_NAME", "DT_LOCAL_HR", "TEMP"]

/-- The merged output row the pipeline produces from the example tables. -/
def exOutRow : Row :=
  [("FL_ID", some (.int 100)), ("ORIGIN", some (.str "JFK")), ("DEST", some (.str "LAX")),
   ("YYYYMM", some (.int 202001)), ("ORIGIN_DMD_CNT", some (.int 7)),
   ("DEST_DMD_CNT", some (.int 0)), ("ORIGIN_TEMP", some (.int 20)), ("DEST_TEMP", none)]

/-- The single output partition written from the example tables. -/
def exPart : Cell × Table := (some (Value.int 202001), [exOutRow])

/-! ### Claim C6 — output-directory preparation -/

/-- C6: on every run the loader first ensures the output directory exists
(`makedirs(exist_ok=True)`), then removes it recursively, then recreates it
empty; from any initial state, also a first run with no directory, the
sequence succeeds and leaves an empty directory, and a failing `rmtree` is
swallowed by the bare `except: pass`. -/
theorem C6_output_dir_preparation :
    (∀ s : DirState, prepare_output_dir s = Except.ok (some [])) ∧
    rmtree none = Except.error () ∧ try_rmtree none = none := by
  refine ⟨fun s => ?_, rfl, rfl⟩
  cases s <;> rfl

/-! ### Claim C8 — the writer -/

theorem count_filter_eq_gen {α : Type} [BEq α] [LawfulBEq α] (p : α → Bool) (n : α)
    (l : List α) : (l.filter p).count n = if p n then l.count n else 0 := by
  induction l with
  | nil => simp
  | cons a l ih =>
    by_cases han : a = n
    · subst han
      by_cases hpa : p a <;> simp [List.filter_cons, hpa, List.count_cons, ih]
    · have hban : (a == n) = false := beq_false_of_ne han
      by_cases hpa : p a <;>
        simp [List.filter_cons, hpa, List.count_cons, ih, hban]

theorem count_lawful_eq {α : Type} (i1 i2 : BEq α) (h1 : @LawfulBEq α i1)
    (h2 : @LawfulBEq α i2) (a : α) (l : List α) :
    @List.count α i1 a l = @List.count α i2 a l := by
  induction l with
  | nil => rfl
  | cons b l ih =>
    rw [@List.count_cons α i1, @List.count_cons α i2, ih]
    congr 1
    by_cases hba : b = a
    · rw [hba]
      rw [@beq_self_eq_true α i1 h1, @beq_self_eq_true α i2 h2]
    · rw [@beq_false_of_ne α i1 h1 _ _ hba, @beq_false_of_ne α i2 h2 _ _ hba]

theorem count_flatten_parts (t : Table) (keys : List Cell) (hnd : keys.Nodup) (r : Row) :
    ((keys.map (fun k => t.filter (fun r' => decide (lookup r' "YYYYMM" = k)))).flatten).count r
      = if lookup r "YYYYMM" ∈ keys then t.count r else 0 := by
  induction keys with
  | nil => simp
  | cons k ks ih =>
    have hk : k ∉ ks := (List.nodup_cons.mp hnd).1
    rw [List.map_cons, List.flatten_cons, List.count_append, ih (List.nodup_cons.mp hnd).2,
        count_filter_eq_gen]
    by_cases hkey : lookup r "YYYYMM" = k
    · simp only [hkey]
      simp [hk]
    · simp [hkey]

/-- C8: the write call overwrites (its result is independent of any previous
output), groups rows by their `YYYYMM` cell, and the multiset of rows written
across all partitions is exactly the multiset of rows of the cleaned merged
table (coalescing only re-buckets physical files). -/
theorem C8_writer_partitioned (prev prev' : List (Cell × Table)) (ds ws : List ColName)
    (ft dt wt : Table) :
    write_output prev ds ws ft dt wt = write_output prev' ds ws ft dt wt ∧
    (∀ pr ∈ write_output prev ds ws ft dt wt, ∀ r ∈ pr.2, lookup r "YYYYMM" = pr.1) ∧
    ((write_output prev ds ws ft dt wt).map Prod.snd).flatten.Perm
      (full_pipeline ds ws ft dt wt) := by
  refine ⟨rfl, ?_, ?_⟩
  · intro pr hpr r hr
    rcases List.mem_map.mp hpr with ⟨k, _, heq⟩
    rw [← heq] at hr ⊢
    exact of_decide_eq_true (List.mem_filter.mp hr).2
  · refine List.perm_iff_count.mpr (fun r => ?_)
    have hcnt : ∀ (l : Table) (r : Row),
        @List.count Row instBEqOfDecidableEq r l = List.count r l :=
      fun l r => count_lawful_eq _ _ inferInstance inferInstance r l
    rw [hcnt, hcnt]
    unfold write_output write_partitioned coalesce
    rw [List.map_map]
    have hflat :
        (List.map (Prod.snd ∘ fun k =>
            (k, (full_pipeline ds ws ft dt wt).filter
              (fun r' => decide (lookup r' "YYYYMM" = k)))) (writeKeys (full_pipeline ds ws ft dt wt)))
          = (writeKeys (full_pipeline ds ws ft dt wt)).map
              (fun k => (full_pipeline ds ws ft dt wt).filter
                (fun r' => decide (lookup r' "YYYYMM" = k))) := rfl
    have hnd : (writeKeys (full_pipeline ds ws ft dt wt)).Nodup := by
      unfold writeKeys
      exact List.nodup_dedup _
    rw [hflat, count_flatten_parts (full_pipeline ds ws ft dt wt) _ hnd r]
    by_cases hmem : lookup r "YYYYMM" ∈ writeKeys (full_pipeline ds ws ft dt wt)
    · simp [hmem]
    · rw [if_neg hmem]
      symm
      rw [List.count_eq_zero]
      intro hrt
      refine hmem ?_
      unfold writeKeys
      exact List.mem_dedup.mpr (List.mem_map_of_mem _ hrt)

theorem C8_writer_partitioned_witness :
    exPart ∈ write_output [] exDemandSchema exWeatherSchema [exFlightRow] [exDemandRow] [exWeatherRow] ∧
    exOutRow ∈ exPart.2 ∧ lookup exOutRow "YYYYMM" = exPart.1 :=
  ⟨by decide, by decide,
    (C8_writer_partitioned [] [] exDemandSchema exWeatherSchema [exFlightRow] [exDemandRow]
        [exWeatherRow]).2.1 exPart (by decide) exOutRow (by decide)⟩

/-! ### Claim C10 — the loader's column drops -/

theorem mem_dropRowCols_of {p : ColName × Cell} {r : Row} (cols : List ColName)
    (hp : p ∈ r) (h : p.1 ∉ cols) : p ∈ dropRowCols cols r :=
  List.mem_filter.mpr ⟨hp, by simpa using h⟩

theorem of_mem_dropRowCols {q : ColName × Cell} {r : Row} {cols : List ColName}
    (hq : q ∈ dropRowCols cols r) : q ∈ r ∧ q.1 ∉ cols := by
  have h := List.mem_filter.mp hq
  exact ⟨h.1, by simpa using h.2⟩

/-- C10: at load time the demand and the weather table lose exactly the two
metadata columns and `YEAR`; the flight table loses only the two metadata
columns (its `YEAR`-named pairs survive); every other (name, value) pair of
every row is carried over unchanged. -/
theorem C10_loader_drops (ft dt wt : Table) :
    (∀ r ∈ dt, dropRowCols (drop_meta_cols ++ ["YEAR"]) r ∈ load_arpt_demand dt ∧
      (∀ p ∈ r, p.1 ∉ drop_meta_cols ++ ["YEAR"] →
        p ∈ dropRowCols (drop_meta_cols ++ ["YEAR"]) r) ∧
      (∀ q ∈ dropRowCols (drop_meta_cols ++ ["YEAR"]) r,
        q ∈ r ∧ q.1 ∉ drop_meta_cols ++ ["YEAR"])) ∧
    (∀ r ∈ wt, dropRowCols (drop_meta_cols ++ ["YEAR"]) r ∈ load_arpt_weather wt ∧
      (∀ p ∈ r, p.1 ∉ drop_meta_cols ++ ["YEAR"] →
        p ∈ dropRowCols (drop_meta_cols ++ ["YEAR"]) r) ∧
      (∀ q ∈ dropRowCols (drop_meta_cols ++ ["YEAR"]) r,
        q ∈ r ∧ q.1 ∉ drop_meta_cols ++ ["YEAR"])) ∧
    (∀ r ∈ ft, dropRowCols drop_meta_cols r ∈ load_nas_flights ft ∧
      (∀ p ∈ r, p.1 ∉ drop_meta_cols → p ∈ dropRowCols drop_meta_cols r) ∧
      (∀ p ∈ r, p.1 = "YEAR" → p ∈ dropRowCols drop_meta_cols r) ∧
      (∀ q ∈ dropRowCols drop_meta_cols r, q ∈ r ∧ q.1 ∉ drop_meta_cols)) := by
  refine ⟨fun r hr => ⟨List.mem_map_of_mem _ hr, fun p hp h => mem_dropRowCols_of _ hp h,
      fun q hq => of_mem_dropRowCols hq⟩,
    fun r hr => ⟨List.mem_map_of_mem _ hr, fun p hp h => mem_dropRowCols_of _ hp h,
      fun q hq => of_mem_dropRowCols hq⟩,
    fun r hr => ⟨List.mem_map_of_mem _ hr, fun p hp h => mem_dropRowCols_of _ hp h,
      fun p hp h => mem_dropRowCols_of _ hp ?_, fun q hq => of_mem_dropRowCols hq⟩⟩
  rw [h]
  decide

theorem C10_loader_drops_witness :
    exDemandRow ∈ [exDemandRow] ∧
    dropRowCols (drop_meta_cols ++ ["YEAR"]) exDemandRow ∈ load_arpt_demand [exDemandRow] ∧
    ("DMD_CNT", some (Value.int 7)) ∈ dropRowCols (drop_meta_cols ++ ["YEAR"]) exDemandRow :=
  ⟨by decide,
    ((C10_loader_drops [exFlightRow] [exDemandRow] [exWeatherRow]).1 exDemandRow (by decide)).1,
    ((C10_loader_drops [exFlightRow] [exDemandRow] [exWeatherRow]).1 exDemandRow
        (by decide)).2.1 ("DMD_CNT", some (Value.int 7)) (by decide) (by decide)⟩

/-! ### Claim C1 — join cardinality -/

/-- Two rows agree (non-null and equal) on both key columns. -/
def rowsKeyClash (r s : Row) (k1 k2 : ColName) : Bool :=
  eqCell (lookup r k1) (lookup s k1) && eqCell (lookup r k2) (lookup s k2)

/-- No two rows of the table share a (non-null) value pair in the two key
columns: the join key is unique. -/
def keysUniqueB : Table → ColName → ColName → Bool
  | [], _, _ => true
  | r :: t, k1, k2 => t.all (fun s => !(rowsKeyClash r s k1 k2)) && keysUniqueB t k1 k2

theorem eqCell_trans_left {a x y : Cell} (h1 : eqCell a x = true)
    (h2 : eqCell a y = true) : eqCell x y = true := by
  cases a with
  | none => simp [eqCell] at h1
  | some av =>
    cases x with
    | none => simp [eqCell] at h1
    | some xv =>
      cases y with
      | none => simp [eqCell] at h2
      | some yv =>
        simp [eqCell] at h1 h2 ⊢
        rw [← h1, ← h2]

theorem filter_matching_le_one (t : Table) (k1 k2 : ColName) (c1 c2 : Cell)
    (hu : keysUniqueB t k1 k2 = true) :
    (t.filter (fun r => eqCell c1 (lookup r k1) && eqCell c2 (lookup r k2))).length ≤ 1 := by
  induction t with
  | nil => simp
  | cons r t ih =>
    have hu' : (t.all (fun s => !(rowsKeyClash r s k1 k2)) = true) ∧
        keysUniqueB t k1 k2 = true := by
      simpa [keysUniqueB, Bool.and_eq_true] using hu
    rw [List.filter_cons]
    by_cases hr : (eqCell c1 (lookup r k1) && eqCell c2 (lookup r k2)) = true
    · rw [if_pos hr]
      have hr2 : eqCell c1 (lookup r k1) = true ∧ eqCell c2 (lookup r k2) = true := by
        simpa using hr
      have hnil : t.filter (fun s => eqCell c1 (lookup s k1) && eqCell c2 (lookup s k2)) = [] := by
        refine List.filter_eq_nil_iff.mpr (fun s hs hps => ?_)
        have hps2 : eqCell c1 (lookup s k1) = true ∧ eqCell c2 (lookup s k2) = true := by
          simpa using hps
        have hclash : rowsKeyClash r s k1 k2 = true := by
          unfold rowsKeyClash
          rw [eqCell_trans_left hr2.1 hps2.1, eqCell_trans_left hr2.2 hps2.2]
          rfl
        have := List.all_eq_true.mp hu'.1 s hs
        rw [hclash] at this
        simp at this
      rw [hnil]
      simp
    · rw [if_neg hr]
      exact ih hu'.2

theorem leftJoin_length {left right : Table} {s : List ColName} {pred : Row → Row → Bool}
    (h : ∀ l ∈ left, (right.filter (fun r => pred l r)).length ≤ 1) :
    (leftJoin left right s pred).length = left.length := by
  induction left with
  | nil => rfl
  | cons l left ih =>
    have hlen : (leftJoin [l] right s pred).length = 1 := by
      unfold leftJoin
      simp only [List.flatMap_cons, List.flatMap_nil, List.append_nil]
      by_cases he : (right.filter (fun r => pred l r)).isEmpty
      · simp [he]
      · rw [if_neg he]
        rw [List.length_map]
        have h1 : (right.filter (fun r => pred l r)).length ≤ 1 :=
          h l (List.mem_cons_self l left)
        have h2 : (right.filter (fun r => pred l r)).length ≠ 0 := by
          intro hz
          exact he (List.isEmpty_iff_length_eq_zero.mpr hz)
        omega
    have hrest : (leftJoin left right s pred).length = left.length :=
      ih (fun l' hl' => h l' (List.mem_cons_of_mem l hl'))
    unfold leftJoin at hlen hrest ⊢
    rw [List.flatMap_cons, List.length_append, hrest]
    simp only [List.flatMap_cons, List.flatMap_nil, List.append_nil] at hlen
    rw [hlen, List.length_cons]
    omega

theorem length_dropCols (cols : List ColName) (t : Table) :
    (dropCols cols t).length = t.length := List.length_map _ _

theorem length_fillna (v : Value) (subset : List ColName) (t : Table) :
    (fillna v subset t).length = t.length := List.length_map _ _

theorem length_foldl_rename (pairs : List (ColName × ColName)) :
    ∀ t : Table, (pairs.foldl (fun df cc => renameCol cc.1 cc.2 df) t).length = t.length := by
  induction pairs with
  | nil => intro t; rfl
  | cons a l ih =>
    intro t
    rw [List.foldl_cons, ih]
    exact List.length_map _ _

theorem length_add_col_pfx (t : Table) (update : List ColName) (pfx : String)
    (ign : List ColName) : (add_col_pfx t update pfx ign).length = t.length :=
  length_foldl_rename _ t

theorem length_mergeStep {flights attrTbl : Table} (as keys : List ColName)
    (pfx : String) (pred : Row → Row → Bool)
    (h : ∀ l ∈ flights, (attrTbl.filter (fun r => pred l r)).length ≤ 1) :
    (mergeStep flights attrTbl as keys pfx pred).length = flights.length := by
  unfold mergeStep
  rw [length_add_col_pfx, length_dropCols, leftJoin_length h]

/-- A second demand row with the same (ARPT_NAME, DT_LOCAL_QTHR) key. -/
def cxDemandRow2 : Row :=
  [("__null_dask_index__", some (.int 1)), ("ARPT_NAME", some (.str "JFK")),
   ("DT_LOCAL_QTHR", some (.int 1)), ("YEAR", some (.int 2020)), ("DMD_CNT", some (.int 8))]

/-- A demand table whose join key is not unique. -/
def cxDemand : Table := [exDemandRow, cxDemandRow2]

/-- C1 counterexample: with a single flight row and a demand table holding two
rows with the same (airport, quarter-hour) key, the merged output has two
rows, so the origin-demand left join does not preserve the cardinality of the
flight table for every content of the input tables, and the flight row does
not appear exactly once. -/
theorem C1_counterexample :
    (full_pipeline exDemandSchema exWeatherSchema [exFlightRow] cxDemand [exWeatherRow]).length = 2 ∧
    ([exFlightRow] : Table).length = 1 := by
  exact ⟨by decide, rfl⟩

/-- C1 (amended): when each attribute table has at most one row per join key
(no two demand rows share a non-null (ARPT_NAME, DT_LOCAL_QTHR) pair, no two
weather rows share a non-null (ARPT_NAME, DT_LOCAL_HR) pair), each of the
four left joins preserves the cardinality of its left table and every input
flight row yields exactly one merged output row. -/
theorem C1_cardinality_amended (ds ws : List ColName) (ft dt wt : Table)
    (hd : keysUniqueB (load_arpt_demand dt) "ARPT_NAME" "DT_LOCAL_QTHR" = true)
    (hw : keysUniqueB (load_arpt_weather wt) "ARPT_NAME" "DT_LOCAL_HR" = true) :
    (full_pipeline ds ws ft dt wt).length = ft.length := by
  have hQ1 : ∀ L : Table,
      (mergeStep L (load_arpt_demand dt) (loadSchema (drop_meta_cols ++ ["YEAR"]) ds)
        demandKeys "ORIGIN_" predOriginDemand).length = L.length := fun L =>
    length_mergeStep _ _ _ _
      (fun l _ => filter_matching_le_one (load_arpt_demand dt) "ARPT_NAME" "DT_LOCAL_QTHR" _ _ hd)
  have hQ2 : ∀ L : Table,
      (mergeStep L (load_arpt_demand dt) (loadSchema (drop_meta_cols ++ ["YEAR"]) ds)
        demandKeys "DEST_" predDestDemand).length = L.length := fun L =>
    length_mergeStep _ _ _ _
      (fun l _ => filter_matching_le_one (load_arpt_demand dt) "ARPT_NAME" "DT_LOCAL_QTHR" _ _ hd)
  have hQ3 : ∀ L : Table,
      (mergeStep L (load_arpt_weather wt) (loadSchema (drop_meta_cols ++ ["YEAR"]) ws)
        weatherKeys "ORIGIN_" predOriginWeather).length = L.length := fun L =>
    length_mergeStep _ _ _ _
      (fun l _ => filter_matching_le_one (load_arpt_weather wt) "ARPT_NAME" "DT_LOCAL_HR" _ _ hw)
  have hQ4 : ∀ L : Table,
      (mergeStep L (load_arpt_weather wt) (loadSchema (drop_meta_cols ++ ["YEAR"]) ws)
        weatherKeys "DEST_" predDestWeather).length = L.length := fun L =>
    length_mergeStep _ _ _ _
      (fun l _ => filter_matching_le_one (load_arpt_weather wt) "ARPT_NAME" "DT_LOCAL_HR" _ _ hw)
  have e1 : full_pipeline ds ws ft dt wt
      = dropCols (ad_remove_cols ++ od_remove_cols)
          (fillna (.int 0)
            (arpt_demand_attr_cols (loadSchema (drop_meta_cols ++ ["YEAR"]) ds))
            (mergeStep
              (mergeStep
                (mergeStep
                  (mergeStep (load_nas_flights ft) (load_arpt_demand dt)
                    (loadSchema (drop_meta_cols ++ ["YEAR"]) ds) demandKeys "ORIGIN_"
                    predOriginDemand)
                  (load_arpt_demand dt) (loadSchema (drop_meta_cols ++ ["YEAR"]) ds)
                  demandKeys "DEST_" predDestDemand)
                (load_arpt_weather wt) (loadSchema (drop_meta_cols ++ ["YEAR"]) ws)
                weatherKeys "ORIGIN_" predOriginWeather)
              (load_arpt_weather wt) (loadSchema (drop_meta_cols ++ ["YEAR"]) ws)
              weatherKeys "DEST_" predDestWeather)) := rfl
  rw [e1, length_dropCols, length_fillna, hQ4, hQ3, hQ2, hQ1]
  exact length_dropCols _ _

theorem C1_cardinality_amended_witness :
    keysUniqueB (load_arpt_demand [exDemandRow]) "ARPT_NAME" "DT_LOCAL_QTHR" = true ∧
    keysUniqueB (load_arpt_weather [exWeatherRow]) "ARPT_NAME" "DT_LOCAL_HR" = true ∧
    (full_pipeline exDemandSchema exWeatherSchema [exFlightRow] [exDemandRow]
        [exWeatherRow]).length = ([exFlightRow] : Table).length :=
  ⟨by decide, by decide,
    C1_cardinality_amended exDemandSchema exWeatherSchema [exFlightRow] [exDemandRow]
      [exWeatherRow] (by decide) (by decide)⟩

/-! ### Three-character string discrimination

All directional prefixes and all key-column names used by the notebook are
distinguished by their first three characters (ORI, DES, ARR, DEP, ARP,
DT_), which keeps the name-freshness side conditions decidable. -/

theorem data_take3_append (p a : String) (c1 c2 c3 : Char) (rest : List Char)
    (hp : p.data = c1 :: c2 :: c3 :: rest) : (p ++ a).data.take 3 = [c1, c2, c3] := by
  rw [String.data_append, hp]
  rfl

theorem append_ne_append3 {p q : String} {c1 c2 c3 d1 d2 d3 : Char}
    {r1 r2 : List Char} (a b : String)
    (hp : p.data = c1 :: c2 :: c3 :: r1) (hq : q.data = d1 :: d2 :: d3 :: r2)
    (hne : ([c1, c2, c3] : List Char) ≠ [d1, d2, d3]) : p ++ a ≠ q ++ b := by
  intro h
  apply hne
  rw [← data_take3_append p a _ _ _ _ hp, h, data_take3_append q b _ _ _ _ hq]

theorem append_ne_lit3 {p y : String} {c1 c2 c3 : Char} {rest : List Char} (a : String)
    (hp : p.data = c1 :: c2 :: c3 :: rest) (hy : y.data.take 3 ≠ [c1, c2, c3]) :
    p ++ a ≠ y := by
  intro h
  apply hy
  rw [← h, data_take3_append p a _ _ _ _ hp]

theorem origin_data : ("ORIGIN_" : String).data = 'O' :: 'R' :: 'I' :: "GIN_".data := by
  decide

theorem dest_data : ("DEST_" : String).data = 'D' :: 'E' :: 'S' :: "T_".data := by
  decide

theorem arr_data : ("ARR_" : String).data = 'A' :: 'R' :: 'R' :: "_".data := by
  decide

theorem dep_data : ("DEP_" : String).data = 'D' :: 'E' :: 'P' :: "_".data := by
  decide

theorem origin_ne_dest (a b : String) : "ORIGIN_" ++ a ≠ "DEST_" ++ b :=
  append_ne_append3 a b origin_data dest_data (by decide)

theorem dest_ne_origin (a b : String) : "DEST_" ++ a ≠ "ORIGIN_" ++ b :=
  append_ne_append3 a b dest_data origin_data (by decide)

theorem origin_ne_arr (a b : String) : "ORIGIN_" ++ a ≠ "ARR_" ++ b :=
  append_ne_append3 a b origin_data arr_data (by decide)

theorem origin_ne_dep (a b : String) : "ORIGIN_" ++ a ≠ "DEP_" ++ b :=
  append_ne_append3 a b origin_data dep_data (by decide)

theorem dest_ne_arr (a b : String) : "DEST_" ++ a ≠ "ARR_" ++ b :=
  append_ne_append3 a b dest_data arr_data (by decide)

theorem dest_ne_dep (a b : String) : "DEST_" ++ a ≠ "DEP_" ++ b :=
  append_ne_append3 a b dest_data dep_data (by decide)

theorem origin_ne_arpt (a : String) : "ORIGIN_" ++ a ≠ "ARPT_NAME" :=
  append_ne_lit3 a origin_data (by decide)

theorem origin_ne_qthr (a : String) : "ORIGIN_" ++ a ≠ "DT_LOCAL_QTHR" :=
  append_ne_lit3 a origin_data (by decide)

theorem origin_ne_hr (a : String) : "ORIGIN_" ++ a ≠ "DT_LOCAL_HR" :=
  append_ne_lit3 a origin_data (by decide)

theorem dest_ne_arpt (a : String) : "DEST_" ++ a ≠ "ARPT_NAME" :=
  append_ne_lit3 a dest_data (by decide)

theorem dest_ne_qthr (a : String) : "DEST_" ++ a ≠ "DT_LOCAL_QTHR" :=
  append_ne_lit3 a dest_data (by decide)

theorem dest_ne_hr (a : String) : "DEST_" ++ a ≠ "DT_LOCAL_HR" :=
  append_ne_lit3 a dest_data (by decide)

/-! ### Well-behaved input schemas -/

/-- Sanity of the three loaded schemas: the two attribute schemas are
duplicate-free, neither attribute table carries the other's bucket column,
their attribute names do not overlap, and no input column is already spelt
like a directionally prefixed attribute or key column.  Real staging schemas
satisfy all of this; the conditions are exactly what keeps the name-based
renames collision-free. -/
def schemaSane (fs ds ws : List ColName) : Prop :=
  ds.Nodup ∧ ws.Nodup ∧
  "DT_LOCAL_QTHR" ∉ ws ∧ "DT_LOCAL_HR" ∉ ds ∧
  (∀ c ∈ dAttrs ds, c ∉ ws) ∧ (∀ c ∈ wAttrs ws, c ∉ ds) ∧
  (∀ n ∈ fs ++ ds ++ ws,
    ∀ c ∈ dAttrs ds ++ wAttrs ws ++ ["ARPT_NAME", "DT_LOCAL_QTHR", "DT_LOCAL_HR"],
      n ≠ "ORIGIN_" ++ c ∧ n ≠ "DEST_" ++ c)

theorem mem_dAttrs_sub {ds : List ColName} {c : ColName} (h : c ∈ dAttrs ds) : c ∈ ds :=
  (List.mem_filter.mp h).1

theorem mem_wAttrs_sub {ws : List ColName} {c : ColName} (h : c ∈ wAttrs ws) : c ∈ ws :=
  (List.mem_filter.mp h).1

theorem mem_u_fs {fs ds ws : List ColName} {n : ColName} (h : n ∈ fs) :
    n ∈ fs ++ ds ++ ws := by simp [h]

theorem mem_u_ds {fs ds ws : List ColName} {n : ColName} (h : n ∈ ds) :
    n ∈ fs ++ ds ++ ws := by simp [h]

theorem mem_u_ws {fs ds ws : List ColName} {n : ColName} (h : n ∈ ws) :
    n ∈ fs ++ ds ++ ws := by simp [h]

theorem memc_d {ds ws : List ColName} {c : ColName} (h : c ∈ dAttrs ds) :
    c ∈ dAttrs ds ++ wAttrs ws ++ ["ARPT_NAME", "DT_LOCAL_QTHR", "DT_LOCAL_HR"] := by
  simp [h]

theorem memc_w {ds ws : List ColName} {c : ColName} (h : c ∈ wAttrs ws) :
    c ∈ dAttrs ds ++ wAttrs ws ++ ["ARPT_NAME", "DT_LOCAL_QTHR", "DT_LOCAL_HR"] := by
  simp [h]

theorem memc_k {ds ws : List ColName} {c : ColName}
    (h : c ∈ (["ARPT_NAME", "DT_LOCAL_QTHR", "DT_LOCAL_HR"] : List ColName)) :
    c ∈ dAttrs ds ++ wAttrs ws ++ ["ARPT_NAME", "DT_LOCAL_QTHR", "DT_LOCAL_HR"] := by
  simp [h]

theorem contains_false_of_not_mem {l : List ColName} {n : ColName} (h : n ∉ l) :
    l.contains n = false := by simpa using h

theorem count_zero_of_not_mem {l : List ColName} {n : ColName} (h : n ∉ l) :
    l.count n = 0 := List.count_eq_zero.mpr h

theorem key_not_mem_attrs {attr keys : List ColName} {k : ColName}
    (hk : keys.contains k = true) :
    k ∉ attr.filter (fun cc => !(keys.contains cc)) := by
  intro hm
  rw [mem_attr_not_key hm] at hk
  exact Bool.false_ne_true hk

/-! ### Step-count wrappers for the two key sets -/

theorem count_stepD_miss (s ds : List ColName) (pfx : String) (n : ColName)
    (hnc : ∀ c ∈ dAttrs ds, (pfx ++ c) ∉ dAttrs ds) (hA : n ∉ dAttrs ds)
    (hf : ∀ c ∈ dAttrs ds, pfx ++ c ≠ n) :
    (mergeStepNames s ds demandKeys pfx).count n
      = if demandKeys.contains n then 0 else s.count n + ds.count n :=
  count_mergeStepNames_miss s ds demandKeys pfx n hnc hA hf

theorem count_stepD_self (s ds : List ColName) (pfx : String) (C : ColName)
    (hnc : ∀ c ∈ dAttrs ds, (pfx ++ c) ∉ dAttrs ds) (hC : C ∈ dAttrs ds)
    (hfig : ∀ x ∈ dAttrs ds, pfx ++ x ≠ C) :
    (mergeStepNames s ds demandKeys pfx).count C = 0 :=
  count_mergeStepNames_self s ds demandKeys pfx C hnc hC hfig

theorem count_stepD_hit (s ds : List ColName) (pfx : String) (C : ColName)
    (hnc : ∀ c ∈ dAttrs ds, (pfx ++ c) ∉ dAttrs ds) (hC : C ∈ dAttrs ds)
    (hkP : demandKeys.contains (pfx ++ C) = false) :
    (mergeStepNames s ds demandKeys pfx).count (pfx ++ C)
      = (s.count C + ds.count C) + (s.count (pfx ++ C) + ds.count (pfx ++ C)) :=
  count_mergeStepNames_hit s ds demandKeys pfx C hnc hC hkP

theorem count_stepW_miss (s ws : List ColName) (pfx : String) (n : ColName)
    (hnc : ∀ c ∈ wAttrs ws, (pfx ++ c) ∉ wAttrs ws) (hA : n ∉ wAttrs ws)
    (hf : ∀ c ∈ wAttrs ws, pfx ++ c ≠ n) :
    (mergeStepNames s ws weatherKeys pfx).count n
      = if weatherKeys.contains n then 0 else s.count n + ws.count n :=
  count_mergeStepNames_miss s ws weatherKeys pfx n hnc hA hf

theorem count_stepW_self (s ws : List ColName) (pfx : String) (C : ColName)
    (hnc : ∀ c ∈ wAttrs ws, (pfx ++ c) ∉ wAttrs ws) (hC : C ∈ wAttrs ws)
    (hfig : ∀ x ∈ wAttrs ws, pfx ++ x ≠ C) :
    (mergeStepNames s ws weatherKeys pfx).count C = 0 :=
  count_mergeStepNames_self s ws weatherKeys pfx C hnc hC hfig

theorem count_stepW_hit (s ws : List ColName) (pfx : String) (C : ColName)
    (hnc : ∀ c ∈ wAttrs ws, (pfx ++ c) ∉ wAttrs ws) (hC : C ∈ wAttrs ws)
    (hkP : weatherKeys.contains (pfx ++ C) = false) :
    (mergeStepNames s ws weatherKeys pfx).count (pfx ++ C)
      = (s.count C + ws.count C) + (s.count (pfx ++ C) + ws.count (pfx ++ C)) :=
  count_mergeStepNames_hit s ws weatherKeys pfx C hnc hC hkP

/-! ### The prefixed names never collide with keys or removal columns -/

theorem origin_not_in_dkeys (a : String) : ("ORIGIN_" ++ a) ∉ demandKeys := by
  intro hm
  rcases (by simpa [demandKeys] using hm :
      "ORIGIN_" ++ a = "ARPT_NAME" ∨ "ORIGIN_" ++ a = "DT_LOCAL_QTHR") with h | h
  · exact origin_ne_arpt a h
  · exact origin_ne_qthr a h

theorem dest_not_in_dkeys (a : String) : ("DEST_" ++ a) ∉ demandKeys := by
  intro hm
  rcases (by simpa [demandKeys] using hm :
      "DEST_" ++ a = "ARPT_NAME" ∨ "DEST_" ++ a = "DT_LOCAL_QTHR") with h | h
  · exact dest_ne_arpt a h
  · exact dest_ne_qthr a h

theorem origin_not_in_wkeys (a : String) : ("ORIGIN_" ++ a) ∉ weatherKeys := by
  intro hm
  rcases (by simpa [weatherKeys] using hm :
      "ORIGIN_" ++ a = "ARPT_NAME" ∨ "ORIGIN_" ++ a = "DT_LOCAL_HR") with h | h
  · exact origin_ne_arpt a h
  · exact origin_ne_hr a h

theorem dest_not_in_wkeys (a : String) : ("DEST_" ++ a) ∉ weatherKeys := by
  intro hm
  rcases (by simpa [weatherKeys] using hm :
      "DEST_" ++ a = "ARPT_NAME" ∨ "DEST_" ++ a = "DT_LOCAL_HR") with h | h
  · exact dest_ne_arpt a h
  · exact dest_ne_hr a h

theorem remove_cols_eval : ad_remove_cols ++ od_remove_cols
    = ["ARR_TIME_DT_LOCAL", "ARR_TIME_DT_LOCAL_DAY", "ARR_TIME_DT_LOCAL_HR",
       "ARR_TIME_DT_LOCAL_QTHR", "DEP_TIME_DT_LOCAL", "DEP_TIME_DT_LOCAL_DAY",
       "DEP_TIME_DT_LOCAL_HR", "DEP_TIME_DT_LOCAL_QTHR", "ORIGIN_DT_LOCAL_QTHR",
       "ORIGIN_DT_LOCAL_HR", "DEST_DT_LOCAL_QTHR", "DEST_DT_LOCAL_HR"] := by rfl

theorem origin_attr_not_removed {C : ColName} (h1 : C ≠ "DT_LOCAL_QTHR")
    (h2 : C ≠ "DT_LOCAL_HR") :
    ("ORIGIN_" ++ C) ∉ ad_remove_cols ++ od_remove_cols := by
  intro hm
  rw [remove_cols_eval] at hm
  simp only [List.mem_cons, List.not_mem_nil, or_false] at hm
  rcases hm with h|h|h|h|h|h|h|h|h|h|h|h
  · exact append_ne_lit3 C origin_data (by decide) h
  · exact append_ne_lit3 C origin_data (by decide) h
  · exact append_ne_lit3 C origin_data (by decide) h
  · exact append_ne_lit3 C origin_data (by decide) h
  · exact append_ne_lit3 C origin_data (by decide) h
  · exact append_ne_lit3 C origin_data (by decide) h
  · exact append_ne_lit3 C origin_data (by decide) h
  · exact append_ne_lit3 C origin_data (by decide) h
  · exact h1 (str_pfx_cancel (show "ORIGIN_" ++ C = "ORIGIN_" ++ "DT_LOCAL_QTHR" from h))
  · exact h2 (str_pfx_cancel (show "ORIGIN_" ++ C = "ORIGIN_" ++ "DT_LOCAL_HR" from h))
  · exact append_ne_lit3 C origin_data (by decide) h
  · exact append_ne_lit3 C origin_data (by decide) h

theorem dest_attr_not_removed {C : ColName} (h1 : C ≠ "DT_LOCAL_QTHR")
    (h2 : C ≠ "DT_LOCAL_HR") :
    ("DEST_" ++ C) ∉ ad_remove_cols ++ od_remove_cols := by
  intro hm
  rw [remove_cols_eval] at hm
  simp only [List.mem_cons, List.not_mem_nil, or_false] at hm
  rcases hm with h|h|h|h|h|h|h|h|h|h|h|h
  · exact append_ne_lit3 C dest_data (by decide) h
  · exact append_ne_lit3 C dest_data (by decide) h
  · exact append_ne_lit3 C dest_data (by decide) h
  · exact append_ne_lit3 C dest_data (by decide) h
  · exact append_ne_lit3 C dest_data (by decide) h
  · exact append_ne_lit3 C dest_data (by decide) h
  · exact append_ne_lit3 C dest_data (by decide) h
  · exact append_ne_lit3 C dest_data (by decide) h
  · exact append_ne_lit3 C dest_data (by decide) h
  · exact append_ne_lit3 C dest_data (by decide) h
  · exact h1 (str_pfx_cancel (show "DEST_" ++ C = "DEST_" ++ "DT_LOCAL_QTHR" from h))
  · exact h2 (str_pfx_cancel (show "DEST_" ++ C = "DEST_" ++ "DT_LOCAL_HR" from h))

/-- Counts of a demand attribute column and its two prefixed forms in the
final schema: the bare name is gone, each prefixed name occurs once. -/
theorem counts_final_demand (fs ds ws : List ColName) (C : ColName)
    (hsane : schemaSane fs ds ws) (hCd : C ∈ dAttrs ds) (hCfs : C ∉ fs) :
    (pipelineNames ds ws fs).count C = 0 ∧
    (pipelineNames ds ws fs).count ("ORIGIN_" ++ C) = 1 ∧
    (pipelineNames ds ws fs).count ("DEST_" ++ C) = 1 := by
  obtain ⟨hndD, hndW, hQW, hHD, hDW, hWD, hfresh⟩ := hsane
  have hCds : C ∈ ds := mem_dAttrs_sub hCd
  have hCnw : C ∉ ws := hDW C hCd
  have hCwA : C ∉ wAttrs ws := fun hm => (hWD C hm) hCds
  have hCfs0 : fs.count C = 0 := count_zero_of_not_mem hCfs
  have hCws0 : ws.count C = 0 := count_zero_of_not_mem hCnw
  have hCds1 : ds.count C = 1 := List.count_eq_one_of_mem hndD hCds
  have hkCd : demandKeys.contains C = false := mem_attr_not_key hCd
  have hCne_arpt : C ≠ "ARPT_NAME" := by
    intro e
    rw [e] at hkCd
    exact absurd hkCd (by decide)
  have hCne_qthr : C ≠ "DT_LOCAL_QTHR" := by
    intro e
    rw [e] at hkCd
    exact absurd hkCd (by decide)
  have hCne_hr : C ≠ "DT_LOCAL_HR" := fun e => hHD (e ▸ hCds)
  have hkCw : weatherKeys.contains C = false := by
    refine contains_false_of_not_mem ?_
    intro hm
    rcases (by simpa [weatherKeys] using hm : C = "ARPT_NAME" ∨ C = "DT_LOCAL_HR") with h | h
    · exact hCne_arpt h
    · exact hCne_hr h
  have hncDO : ∀ c ∈ dAttrs ds, ("ORIGIN_" ++ c) ∉ dAttrs ds := fun c hc hm =>
    (hfresh _ (mem_u_ds (mem_dAttrs_sub hm)) c (memc_d hc)).1 rfl
  have hncDD : ∀ c ∈ dAttrs ds, ("DEST_" ++ c) ∉ dAttrs ds := fun c hc hm =>
    (hfresh _ (mem_u_ds (mem_dAttrs_sub hm)) c (memc_d hc)).2 rfl
  have hncWO : ∀ c ∈ wAttrs ws, ("ORIGIN_" ++ c) ∉ wAttrs ws := fun c hc hm =>
    (hfresh _ (mem_u_ws (mem_wAttrs_sub hm)) c (memc_w hc)).1 rfl
  have hncWD : ∀ c ∈ wAttrs ws, ("DEST_" ++ c) ∉ wAttrs ws := fun c hc hm =>
    (hfresh _ (mem_u_ws (mem_wAttrs_sub hm)) c (memc_w hc)).2 rfl
  have hOCf : ∀ m ∈ fs ++ ds ++ ws, m ≠ "ORIGIN_" ++ C := fun m hm =>
    (hfresh m hm C (memc_d hCd)).1
  have hDCf : ∀ m ∈ fs ++ ds ++ ws, m ≠ "DEST_" ++ C := fun m hm =>
    (hfresh m hm C (memc_d hCd)).2
  have hOCfs0 : fs.count ("ORIGIN_" ++ C) = 0 :=
    count_zero_of_not_mem (fun hm => hOCf _ (mem_u_fs hm) rfl)
  have hOCds0 : ds.count ("ORIGIN_" ++ C) = 0 :=
    count_zero_of_not_mem (fun hm => hOCf _ (mem_u_ds hm) rfl)
  have hOCws0 : ws.count ("ORIGIN_" ++ C) = 0 :=
    count_zero_of_not_mem (fun hm => hOCf _ (mem_u_ws hm) rfl)
  have hDCfs0 : fs.count ("DEST_" ++ C) = 0 :=
    count_zero_of_not_mem (fun hm => hDCf _ (mem_u_fs hm) rfl)
  have hDCds0 : ds.count ("DEST_" ++ C) = 0 :=
    count_zero_of_not_mem (fun hm => hDCf _ (mem_u_ds hm) rfl)
  have hDCws0 : ws.count ("DEST_" ++ C) = 0 :=
    count_zero_of_not_mem (fun hm => hDCf _ (mem_u_ws hm) rfl)
  have hOCdA : ("ORIGIN_" ++ C) ∉ dAttrs ds := fun hm =>
    hOCf _ (mem_u_ds (mem_dAttrs_sub hm)) rfl
  have hOCwA : ("ORIGIN_" ++ C) ∉ wAttrs ws := fun hm =>
    hOCf _ (mem_u_ws (mem_wAttrs_sub hm)) rfl
  have hDCdA : ("DEST_" ++ C) ∉ dAttrs ds := fun hm =>
    hDCf _ (mem_u_ds (mem_dAttrs_sub hm)) rfl
  have hDCwA : ("DEST_" ++ C) ∉ wAttrs ws := fun hm =>
    hDCf _ (mem_u_ws (mem_wAttrs_sub hm)) rfl
  have hfigDO : ∀ x ∈ dAttrs ds, "ORIGIN_" ++ x ≠ C := fun x hx e =>
    (hfresh C (mem_u_ds hCds) x (memc_d hx)).1 e.symm
  have hfigDD : ∀ x ∈ dAttrs ds, "DEST_" ++ x ≠ C := fun x hx e =>
    (hfresh C (mem_u_ds hCds) x (memc_d hx)).2 e.symm
  have hfigWO : ∀ x ∈ wAttrs ws, "ORIGIN_" ++ x ≠ C := fun x hx e =>
    (hfresh C (mem_u_ds hCds) x (memc_w hx)).1 e.symm
  have hfigWD : ∀ x ∈ wAttrs ws, "DEST_" ++ x ≠ C := fun x hx e =>
    (hfresh C (mem_u_ds hCds) x (memc_w hx)).2 e.symm
  -- count of the bare name C, stage by stage
  have g1C : ∀ s' : List ColName,
      (mergeStepNames s' ds demandKeys "ORIGIN_").count C = 0 := fun s' =>
    count_stepD_self s' ds "ORIGIN_" C hncDO hCd hfigDO
  have g2C : ∀ s' : List ColName,
      (mergeStepNames s' ds demandKeys "DEST_").count C = 0 := fun s' =>
    count_stepD_self s' ds "DEST_" C hncDD hCd hfigDD
  have g3C : ∀ s' : List ColName, s'.count C = 0 →
      (mergeStepNames s' ws weatherKeys "ORIGIN_").count C = 0 := fun s' h => by
    rw [count_stepW_miss s' ws "ORIGIN_" C hncWO hCwA hfigWO]
    simp [hkCw, h, hCws0]
  have g4C : ∀ s' : List ColName, s'.count C = 0 →
      (mergeStepNames s' ws weatherKeys "DEST_").count C = 0 := fun s' h => by
    rw [count_stepW_miss s' ws "DEST_" C hncWD hCwA hfigWD]
    simp [hkCw, h, hCws0]
  have s4C : (mgNames ds ws fs).count C = 0 :=
    g4C _ (g3C _ (g2C _))
  -- count of ORIGIN_C
  have s1OC : (mergeStepNames fs ds demandKeys "ORIGIN_").count ("ORIGIN_" ++ C) = 1 := by
    rw [count_stepD_hit fs ds "ORIGIN_" C hncDO hCd
        (contains_false_of_not_mem (origin_not_in_dkeys C))]
    simp [hCfs0, hCds1, hOCfs0, hOCds0]
  have g2OC : ∀ s' : List ColName, s'.count ("ORIGIN_" ++ C) = 1 →
      (mergeStepNames s' ds demandKeys "DEST_").count ("ORIGIN_" ++ C) = 1 := fun s' h => by
    rw [count_stepD_miss s' ds "DEST_" ("ORIGIN_" ++ C) hncDD hOCdA
        (fun c _ => dest_ne_origin c C)]
    rw [contains_false_of_not_mem (origin_not_in_dkeys C)]
    simp [h, hOCds0]
  have hfwOC : ∀ c ∈ wAttrs ws, "ORIGIN_" ++ c ≠ "ORIGIN_" ++ C := fun c hc e =>
    hCwA (str_pfx_cancel e ▸ hc)
  have g3OC : ∀ s' : List ColName, s'.count ("ORIGIN_" ++ C) = 1 →
      (mergeStepNames s' ws weatherKeys "ORIGIN_").count ("ORIGIN_" ++ C) = 1 := fun s' h => by
    rw [count_stepW_miss s' ws "ORIGIN_" ("ORIGIN_" ++ C) hncWO hOCwA hfwOC]
    rw [contains_false_of_not_mem (origin_not_in_wkeys C)]
    simp [h, hOCws0]
  have g4OC : ∀ s' : List ColName, s'.count ("ORIGIN_" ++ C) = 1 →
      (mergeStepNames s' ws weatherKeys "DEST_").count ("ORIGIN_" ++ C) = 1 := fun s' h => by
    rw [count_stepW_miss s' ws "DEST_" ("ORIGIN_" ++ C) hncWD hOCwA
        (fun c _ => dest_ne_origin c C)]
    rw [contains_false_of_not_mem (origin_not_in_wkeys C)]
    simp [h, hOCws0]
  have s4OC : (mgNames ds ws fs).count ("ORIGIN_" ++ C) = 1 :=
    g4OC _ (g3OC _ (g2OC _ s1OC))
  -- count of DEST_C
  have s1DC : (mergeStepNames fs ds demandKeys "ORIGIN_").count ("DEST_" ++ C) = 0 := by
    rw [count_stepD_miss fs ds "ORIGIN_" ("DEST_" ++ C) hncDO hDCdA
        (fun c _ => origin_ne_dest c C)]
    rw [contains_false_of_not_mem (dest_not_in_dkeys C)]
    simp [hDCfs0, hDCds0]
  have s2DC :
      (mergeStepNames (mergeStepNames fs ds demandKeys "ORIGIN_") ds demandKeys
        "DEST_").count ("DEST_" ++ C) = 1 := by
    rw [count_stepD_hit (mergeStepNames fs ds demandKeys "ORIGIN_") ds "DEST_" C hncDD hCd
        (contains_false_of_not_mem (dest_not_in_dkeys C))]
    simp [g1C fs, hCds1, s1DC, hDCds0]
  have hfwDC2 : ∀ c ∈ wAttrs ws, "DEST_" ++ c ≠ "DEST_" ++ C := fun c hc e =>
    hCwA (str_pfx_cancel e ▸ hc)
  have g3DC : ∀ s' : List ColName, s'.count ("DEST_" ++ C) = 1 →
      (mergeStepNames s' ws weatherKeys "ORIGIN_").count ("DEST_" ++ C) = 1 := fun s' h => by
    rw [count_stepW_miss s' ws "ORIGIN_" ("DEST_" ++ C) hncWO hDCwA
        (fun c _ => origin_ne_dest c C)]
    rw [contains_false_of_not_mem (dest_not_in_wkeys C)]
    simp [h, hDCws0]
  have g4DC : ∀ s' : List ColName, s'.count ("DEST_" ++ C) = 1 →
      (mergeStepNames s' ws weatherKeys "DEST_").count ("DEST_" ++ C) = 1 := fun s' h => by
    rw [count_stepW_miss s' ws "DEST_" ("DEST_" ++ C) hncWD hDCwA hfwDC2]
    rw [contains_false_of_not_mem (dest_not_in_wkeys C)]
    simp [h, hDCws0]
  have s4DC : (mgNames ds ws fs).count ("DEST_" ++ C) = 1 :=
    g4DC _ (g3DC _ s2DC)
  have hpipe : pipelineNames ds ws fs
      = dropNames (ad_remove_cols ++ od_remove_cols) (mgNames ds ws fs) := rfl
  refine ⟨?_, ?_, ?_⟩
  · rw [hpipe, count_dropNames]
    cases h : (ad_remove_cols ++ od_remove_cols).contains C <;> simp [s4C]
  · rw [hpipe, count_dropNames,
        contains_false_of_not_mem (origin_attr_not_removed hCne_qthr hCne_hr)]
    simpa using s4OC
  · rw [hpipe, count_dropNames,
        contains_false_of_not_mem (dest_attr_not_removed hCne_qthr hCne_hr)]
    simpa using s4DC

theorem count_stepD_zero (s ds : List ColName) (pfx : String) (n : ColName)
    (hnc : ∀ c ∈ dAttrs ds, (pfx ++ c) ∉ dAttrs ds) (hA : n ∉ dAttrs ds)
    (hf : ∀ c ∈ dAttrs ds, pfx ++ c ≠ n) (hs : s.count n = 0) (hds : ds.count n = 0) :
    (mergeStepNames s ds demandKeys pfx).count n = 0 := by
  rw [count_stepD_miss s ds pfx n hnc hA hf]
  cases h : demandKeys.contains n <;> simp [hs, hds]

theorem count_stepW_zero (s ws : List ColName) (pfx : String) (n : ColName)
    (hnc : ∀ c ∈ wAttrs ws, (pfx ++ c) ∉ wAttrs ws) (hA : n ∉ wAttrs ws)
    (hf : ∀ c ∈ wAttrs ws, pfx ++ c ≠ n) (hs : s.count n = 0) (hws : ws.count n = 0) :
    (mergeStepNames s ws weatherKeys pfx).count n = 0 := by
  rw [count_stepW_miss s ws pfx n hnc hA hf]
  cases h : weatherKeys.contains n <;> simp [hs, hws]

theorem count_stepD_keydrop (s ds : List ColName) (pfx : String) (n : ColName)
    (hnc : ∀ c ∈ dAttrs ds, (pfx ++ c) ∉ dAttrs ds)
    (hf : ∀ c ∈ dAttrs ds, pfx ++ c ≠ n) (hk : demandKeys.contains n = true) :
    (mergeStepNames s ds demandKeys pfx).count n = 0 := by
  rw [count_stepD_miss s ds pfx n hnc (key_not_mem_attrs hk) hf, hk]
  simp

theorem count_stepW_keydrop (s ws : List ColName) (pfx : String) (n : ColName)
    (hnc : ∀ c ∈ wAttrs ws, (pfx ++ c) ∉ wAttrs ws)
    (hf : ∀ c ∈ wAttrs ws, pfx ++ c ≠ n) (hk : weatherKeys.contains n = true) :
    (mergeStepNames s ws weatherKeys pfx).count n = 0 := by
  rw [count_stepW_miss s ws pfx n hnc (key_not_mem_attrs hk) hf, hk]
  simp

/-- Counts of a weather attribute column and its two prefixed forms in the
final schema: the bare name is gone, each prefixed name occurs once. -/
theorem counts_final_weather (fs ds ws : List ColName) (C : ColName)
    (hsane : schemaSane fs ds ws) (hCw : C ∈ wAttrs ws) (hCfs : C ∉ fs) :
    (pipelineNames ds ws fs).count C = 0 ∧
    (pipelineNames ds ws fs).count ("ORIGIN_" ++ C) = 1 ∧
    (pipelineNames ds ws fs).count ("DEST_" ++ C) = 1 := by
  obtain ⟨hndD, hndW, hQW, hHD, hDW, hWD, hfresh⟩ := hsane
  have hCws : C ∈ ws := mem_wAttrs_sub hCw
  have hCnds : C ∉ ds := hWD C hCw
  have hCdA : C ∉ dAttrs ds := fun hm => hCnds (mem_dAttrs_sub hm)
  have hCfs0 : fs.count C = 0 := count_zero_of_not_mem hCfs
  have hCds0 : ds.count C = 0 := count_zero_of_not_mem hCnds
  have hCws1 : ws.count C = 1 := List.count_eq_one_of_mem hndW hCws
  have hkCw : weatherKeys.contains C = false := mem_attr_not_key hCw
  have hCne_arpt : C ≠ "ARPT_NAME" := by
    intro e
    rw [e] at hkCw
    exact absurd hkCw (by decide)
  have hCne_hr : C ≠ "DT_LOCAL_HR" := by
    intro e
    rw [e] at hkCw
    exact absurd hkCw (by decide)
  have hCne_qthr : C ≠ "DT_LOCAL_QTHR" := fun e => hQW (e ▸ hCws)
  have hkCd : demandKeys.contains C = false := by
    refine contains_false_of_not_mem ?_
    intro hm
    rcases (by simpa [demandKeys] using hm : C = "ARPT_NAME" ∨ C = "DT_LOCAL_QTHR") with h | h
    · exact hCne_arpt h
    · exact hCne_qthr h
  have hncDO : ∀ c ∈ dAttrs ds, ("ORIGIN_" ++ c) ∉ dAttrs ds := fun c hc hm =>
    (hfresh _ (mem_u_ds (mem_dAttrs_sub hm)) c (memc_d hc)).1 rfl
  have hncDD : ∀ c ∈ dAttrs ds, ("DEST_" ++ c) ∉ dAttrs ds := fun c hc hm =>
    (hfresh _ (mem_u_ds (mem_dAttrs_sub hm)) c (memc_d hc)).2 rfl
  have hncWO : ∀ c ∈ wAttrs ws, ("ORIGIN_" ++ c) ∉ wAttrs ws := fun c hc hm =>
    (hfresh _ (mem_u_ws (mem_wAttrs_sub hm)) c (memc_w hc)).1 rfl
  have hncWD : ∀ c ∈ wAttrs ws, ("DEST_" ++ c) ∉ wAttrs ws := fun c hc hm =>
    (hfresh _ (mem_u_ws (mem_wAttrs_sub hm)) c (memc_w hc)).2 rfl
  have hOCf : ∀ m ∈ fs ++ ds ++ ws, m ≠ "ORIGIN_" ++ C := fun m hm =>
    (hfresh m hm C (memc_w hCw)).1
  have hDCf : ∀ m ∈ fs ++ ds ++ ws, m ≠ "DEST_" ++ C := fun m hm =>
    (hfresh m hm C (memc_w hCw)).2
  have hOCfs0 : fs.count ("ORIGIN_" ++ C) = 0 :=
    count_zero_of_not_mem (fun hm => hOCf _ (mem_u_fs hm) rfl)
  have hOCds0 : ds.count ("ORIGIN_" ++ C) = 0 :=
    count_zero_of_not_mem (fun hm => hOCf _ (mem_u_ds hm) rfl)
  have hOCws0 : ws.count ("ORIGIN_" ++ C) = 0 :=
    count_zero_of_not_mem (fun hm => hOCf _ (mem_u_ws hm) rfl)
  have hDCfs0 : fs.count ("DEST_" ++ C) = 0 :=
    count_zero_of_not_mem (fun hm => hDCf _ (mem_u_fs hm) rfl)
  have hDCds0 : ds.count ("DEST_" ++ C) = 0 :=
    count_zero_of_not_mem (fun hm => hDCf _ (mem_u_ds hm) rfl)
  have hDCws0 : ws.count ("DEST_" ++ C) = 0 :=
    count_zero_of_not_mem (fun hm => hDCf _ (mem_u_ws hm) rfl)
  have hOCdA : ("ORIGIN_" ++ C) ∉ dAttrs ds := fun hm =>
    hOCf _ (mem_u_ds (mem_dAttrs_sub hm)) rfl
  have hOCwA : ("ORIGIN_" ++ C) ∉ wAttrs ws := fun hm =>
    hOCf _ (mem_u_ws (mem_wAttrs_sub hm)) rfl
  have hDCdA : ("DEST_" ++ C) ∉ dAttrs ds := fun hm =>
    hDCf _ (mem_u_ds (mem_dAttrs_sub hm)) rfl
  have hDCwA : ("DEST_" ++ C) ∉ wAttrs ws := fun hm =>
    hDCf _ (mem_u_ws (mem_wAttrs_sub hm)) rfl
  have hfigDO : ∀ x ∈ dAttrs ds, "ORIGIN_" ++ x ≠ C := fun x hx e =>
    (hfresh C (mem_u_ws hCws) x (memc_d hx)).1 e.symm
  have hfigDD : ∀ x ∈ dAttrs ds, "DEST_" ++ x ≠ C := fun x hx e =>
    (hfresh C (mem_u_ws hCws) x (memc_d hx)).2 e.symm
  have hfigWO : ∀ x ∈ wAttrs ws, "ORIGIN_" ++ x ≠ C := fun x hx e =>
    (hfresh C (mem_u_ws hCws) x (memc_w hx)).1 e.symm
  have hfigWD : ∀ x ∈ wAttrs ws, "DEST_" ++ x ≠ C := fun x hx e =>
    (hfresh C (mem_u_ws hCws) x (memc_w hx)).2 e.symm
  -- creation of ORIGIN_C by a demand pass would need C among the demand attrs
  have hcreDO : ∀ c ∈ dAttrs ds, "ORIGIN_" ++ c ≠ "ORIGIN_" ++ C := fun c hc e =>
    hCnds (mem_dAttrs_sub ((str_pfx_cancel e) ▸ hc))
  have hcreDD : ∀ c ∈ dAttrs ds, "DEST_" ++ c ≠ "DEST_" ++ C := fun c hc e =>
    hCnds (mem_dAttrs_sub ((str_pfx_cancel e) ▸ hc))
  -- the bare name C through the four stages
  have s1C : (mergeStepNames fs ds demandKeys "ORIGIN_").count C = 0 :=
    count_stepD_zero fs ds "ORIGIN_" C hncDO hCdA hfigDO hCfs0 hCds0
  have s2C :
      (mergeStepNames (mergeStepNames fs ds demandKeys "ORIGIN_") ds demandKeys
        "DEST_").count C = 0 :=
    count_stepD_zero _ ds "DEST_" C hncDD hCdA hfigDD s1C hCds0
  have g3C : ∀ s' : List ColName, s'.count C = 0 →
      (mergeStepNames s' ws weatherKeys "ORIGIN_").count C = 0 := fun s' _ =>
    count_stepW_self s' ws "ORIGIN_" C hncWO hCw hfigWO
  have g4C : ∀ s' : List ColName,
      (mergeStepNames s' ws weatherKeys "DEST_").count C = 0 := fun s' =>
    count_stepW_self s' ws "DEST_" C hncWD hCw hfigWD
  have s4C : (mgNames ds ws fs).count C = 0 := g4C _
  -- ORIGIN_C through the four stages
  have s1OC : (mergeStepNames fs ds demandKeys "ORIGIN_").count ("ORIGIN_" ++ C) = 0 :=
    count_stepD_zero fs ds "ORIGIN_" ("ORIGIN_" ++ C) hncDO hOCdA hcreDO hOCfs0 hOCds0
  have s2OC :
      (mergeStepNames (mergeStepNames fs ds demandKeys "ORIGIN_") ds demandKeys
        "DEST_").count ("ORIGIN_" ++ C) = 0 :=
    count_stepD_zero _ ds "DEST_" ("ORIGIN_" ++ C) hncDD hOCdA
      (fun c _ => dest_ne_origin c C) s1OC hOCds0
  have s3OC :
      (mergeStepNames
        (mergeStepNames (mergeStepNames fs ds demandKeys "ORIGIN_") ds demandKeys "DEST_")
        ws weatherKeys "ORIGIN_").count ("ORIGIN_" ++ C) = 1 := by
    rw [count_stepW_hit _ ws "ORIGIN_" C hncWO hCw
        (contains_false_of_not_mem (origin_not_in_wkeys C))]
    simp [s2C, hCws1, s2OC, hOCws0]
  have s4OC : (mgNames ds ws fs).count ("ORIGIN_" ++ C) = 1 := by
    rw [show mgNames ds ws fs = mergeStepNames
        (mergeStepNames
          (mergeStepNames (mergeStepNames fs ds demandKeys "ORIGIN_") ds demandKeys "DEST_")
          ws weatherKeys "ORIGIN_") ws weatherKeys "DEST_" from rfl,
      count_stepW_miss _ ws "DEST_" ("ORIGIN_" ++ C) hncWD hOCwA
        (fun c _ => dest_ne_origin c C)]
    rw [contains_false_of_not_mem (origin_not_in_wkeys C)]
    simp [s3OC, hOCws0]
  -- DEST_C through the four stages
  have s1DC : (mergeStepNames fs ds demandKeys "ORIGIN_").count ("DEST_" ++ C) = 0 :=
    count_stepD_zero fs ds "ORIGIN_" ("DEST_" ++ C) hncDO hDCdA
      (fun c _ => origin_ne_dest c C) hDCfs0 hDCds0
  have s2DC :
      (mergeStepNames (mergeStepNames fs ds demandKeys "ORIGIN_") ds demandKeys
        "DEST_").count ("DEST_" ++ C) = 0 :=
    count_stepD_zero _ ds "DEST_" ("DEST_" ++ C) hncDD hDCdA hcreDD s1DC hDCds0
  have s3DC :
      (mergeStepNames
        (mergeStepNames (mergeStepNames fs ds demandKeys "ORIGIN_") ds demandKeys "DEST_")
        ws weatherKeys "ORIGIN_").count ("DEST_" ++ C) = 0 :=
    count_stepW_zero _ ws "ORIGIN_" ("DEST_" ++ C) hncWO hDCwA
      (fun c _ => origin_ne_dest c C) s2DC hDCws0
  have s4DC : (mgNames ds ws fs).count ("DEST_" ++ C) = 1 := by
    rw [show mgNames ds ws fs = mergeStepNames
        (mergeStepNames
          (mergeStepNames (mergeStepNames fs ds demandKeys "ORIGIN_") ds demandKeys "DEST_")
          ws weatherKeys "ORIGIN_") ws weatherKeys "DEST_" from rfl,
      count_stepW_hit _ ws "DEST_" C hncWD hCw
        (contains_false_of_not_mem (dest_not_in_wkeys C))]
    have s3C : (mergeStepNames
        (mergeStepNames (mergeStepNames fs ds demandKeys "ORIGIN_") ds demandKeys "DEST_")
        ws weatherKeys "ORIGIN_").count C = 0 := g3C _ s2C
    simp [s3C, hCws1, s3DC, hDCws0]
  have hpipe : pipelineNames ds ws fs
      = dropNames (ad_remove_cols ++ od_remove_cols) (mgNames ds ws fs) := rfl
  refine ⟨?_, ?_, ?_⟩
  · rw [hpipe, count_dropNames]
    cases h : (ad_remove_cols ++ od_remove_cols).contains C <;> simp [s4C]
  · rw [hpipe, count_dropNames,
        contains_false_of_not_mem (origin_attr_not_removed hCne_qthr hCne_hr)]
    simpa using s4OC
  · rw [hpipe, count_dropNames,
        contains_false_of_not_mem (dest_attr_not_removed hCne_qthr hCne_hr)]
    simpa using s4DC

/-- The join-key and bucket columns appear in the final schema neither bare
nor under a directional prefix. -/
theorem counts_final_keys (fs ds ws : List ColName) (hsane : schemaSane fs ds ws) :
    ∀ K ∈ (["ARPT_NAME", "DT_LOCAL_QTHR", "DT_LOCAL_HR"] : List ColName),
      (pipelineNames ds ws fs).count K = 0 ∧
      (pipelineNames ds ws fs).count ("ORIGIN_" ++ K) = 0 ∧
      (pipelineNames ds ws fs).count ("DEST_" ++ K) = 0 := by
  obtain ⟨hndD, hndW, hQW, hHD, hDW, hWD, hfresh⟩ := hsane
  have hncDO : ∀ c ∈ dAttrs ds, ("ORIGIN_" ++ c) ∉ dAttrs ds := fun c hc hm =>
    (hfresh _ (mem_u_ds (mem_dAttrs_sub hm)) c (memc_d hc)).1 rfl
  have hncDD : ∀ c ∈ dAttrs ds, ("DEST_" ++ c) ∉ dAttrs ds := fun c hc hm =>
    (hfresh _ (mem_u_ds (mem_dAttrs_sub hm)) c (memc_d hc)).2 rfl
  have hncWO : ∀ c ∈ wAttrs ws, ("ORIGIN_" ++ c) ∉ wAttrs ws := fun c hc hm =>
    (hfresh _ (mem_u_ws (mem_wAttrs_sub hm)) c (memc_w hc)).1 rfl
  have hncWD : ∀ c ∈ wAttrs ws, ("DEST_" ++ c) ∉ wAttrs ws := fun c hc hm =>
    (hfresh _ (mem_u_ws (mem_wAttrs_sub hm)) c (memc_w hc)).2 rfl
  have hKdA_arpt : "ARPT_NAME" ∉ dAttrs ds := key_not_mem_attrs (by decide)
  have hKdA_qthr : "DT_LOCAL_QTHR" ∉ dAttrs ds := key_not_mem_attrs (by decide)
  have hKdA_hr : "DT_LOCAL_HR" ∉ dAttrs ds := fun hm => hHD (mem_dAttrs_sub hm)
  have hKwA_arpt : "ARPT_NAME" ∉ wAttrs ws := key_not_mem_attrs (by decide)
  have hKwA_hr : "DT_LOCAL_HR" ∉ wAttrs ws := key_not_mem_attrs (by decide)
  have hKwA_qthr : "DT_LOCAL_QTHR" ∉ wAttrs ws := fun hm => hQW (mem_wAttrs_sub hm)
  have hpipe : pipelineNames ds ws fs
      = dropNames (ad_remove_cols ++ od_remove_cols) (mgNames ds ws fs) := rfl
  have hdropz : ∀ n : ColName, (mgNames ds ws fs).count n = 0 →
      (pipelineNames ds ws fs).count n = 0 := by
    intro n h
    rw [hpipe, count_dropNames]
    cases hc : (ad_remove_cols ++ od_remove_cols).contains n <;> simp [h]
  -- generic zero chain for a name absent from every input and never created
  have hzero : ∀ n : ColName,
      fs.count n = 0 → ds.count n = 0 → ws.count n = 0 →
      n ∉ dAttrs ds → n ∉ wAttrs ws →
      (∀ c ∈ dAttrs ds, "ORIGIN_" ++ c ≠ n) → (∀ c ∈ dAttrs ds, "DEST_" ++ c ≠ n) →
      (∀ c ∈ wAttrs ws, "ORIGIN_" ++ c ≠ n) → (∀ c ∈ wAttrs ws, "DEST_" ++ c ≠ n) →
      (mgNames ds ws fs).count n = 0 := by
    intro n h1 h2 h3 h4 h5 h6 h7 h8 h9
    exact count_stepW_zero _ ws "DEST_" n hncWD h5 h9
      (count_stepW_zero _ ws "ORIGIN_" n hncWO h5 h8
        (count_stepD_zero _ ds "DEST_" n hncDD h4 h7
          (count_stepD_zero fs ds "ORIGIN_" n hncDO h4 h6 h1 h2) h2) h3) h3
  intro K hK
  -- counts of the prefixed forms are zero in every input list
  have hOfs0 : fs.count ("ORIGIN_" ++ K) = 0 :=
    count_zero_of_not_mem (fun hm => (hfresh _ (mem_u_fs hm) K (memc_k hK)).1 rfl)
  have hOds0 : ds.count ("ORIGIN_" ++ K) = 0 :=
    count_zero_of_not_mem (fun hm => (hfresh _ (mem_u_ds hm) K (memc_k hK)).1 rfl)
  have hOws0 : ws.count ("ORIGIN_" ++ K) = 0 :=
    count_zero_of_not_mem (fun hm => (hfresh _ (mem_u_ws hm) K (memc_k hK)).1 rfl)
  have hDfs0 : fs.count ("DEST_" ++ K) = 0 :=
    count_zero_of_not_mem (fun hm => (hfresh _ (mem_u_fs hm) K (memc_k hK)).2 rfl)
  have hDds0 : ds.count ("DEST_" ++ K) = 0 :=
    count_zero_of_not_mem (fun hm => (hfresh _ (mem_u_ds hm) K (memc_k hK)).2 rfl)
  have hDws0 : ws.count ("DEST_" ++ K) = 0 :=
    count_zero_of_not_mem (fun hm => (hfresh _ (mem_u_ws hm) K (memc_k hK)).2 rfl)
  have hOdA : ("ORIGIN_" ++ K) ∉ dAttrs ds := fun hm =>
    (hfresh _ (mem_u_ds (mem_dAttrs_sub hm)) K (memc_k hK)).1 rfl
  have hOwA : ("ORIGIN_" ++ K) ∉ wAttrs ws := fun hm =>
    (hfresh _ (mem_u_ws (mem_wAttrs_sub hm)) K (memc_k hK)).1 rfl
  have hDdA : ("DEST_" ++ K) ∉ dAttrs ds := fun hm =>
    (hfresh _ (mem_u_ds (mem_dAttrs_sub hm)) K (memc_k hK)).2 rfl
  have hDwA : ("DEST_" ++ K) ∉ wAttrs ws := fun hm =>
    (hfresh _ (mem_u_ws (mem_wAttrs_sub hm)) K (memc_k hK)).2 rfl
  rcases (by simpa using hK :
      K = "ARPT_NAME" ∨ K = "DT_LOCAL_QTHR" ∨ K = "DT_LOCAL_HR") with hKe | hKe | hKe
  · subst hKe
    refine ⟨hdropz _ ?_, hdropz _ ?_, hdropz _ ?_⟩
    · exact count_stepW_keydrop _ ws "DEST_" _ hncWD (fun c _ => dest_ne_arpt c) (by decide)
    · exact hzero _ hOfs0 hOds0 hOws0 hOdA hOwA
        (fun c hc e => hKdA_arpt ((str_pfx_cancel e) ▸ hc))
        (fun c _ => dest_ne_origin c "ARPT_NAME")
        (fun c hc e => hKwA_arpt ((str_pfx_cancel e) ▸ hc))
        (fun c _ => dest_ne_origin c "ARPT_NAME")
    · exact hzero _ hDfs0 hDds0 hDws0 hDdA hDwA
        (fun c _ => origin_ne_dest c "ARPT_NAME")
        (fun c hc e => hKdA_arpt ((str_pfx_cancel e) ▸ hc))
        (fun c _ => origin_ne_dest c "ARPT_NAME")
        (fun c hc e => hKwA_arpt ((str_pfx_cancel e) ▸ hc))
  · subst hKe
    refine ⟨hdropz _ ?_, hdropz _ ?_, hdropz _ ?_⟩
    · refine count_stepW_zero _ ws "DEST_" _ hncWD hKwA_qthr
        (fun c _ => dest_ne_qthr c) ?_ (count_zero_of_not_mem hQW)
      refine count_stepW_zero _ ws "ORIGIN_" _ hncWO hKwA_qthr
        (fun c _ => origin_ne_qthr c) ?_ (count_zero_of_not_mem hQW)
      exact count_stepD_keydrop _ ds "DEST_" _ hncDD (fun c _ => dest_ne_qthr c) (by decide)
    · exact hzero _ hOfs0 hOds0 hOws0 hOdA hOwA
        (fun c hc e => hKdA_qthr ((str_pfx_cancel e) ▸ hc))
        (fun c _ => dest_ne_origin c "DT_LOCAL_QTHR")
        (fun c hc e => hKwA_qthr ((str_pfx_cancel e) ▸ hc))
        (fun c _ => dest_ne_origin c "DT_LOCAL_QTHR")
    · exact hzero _ hDfs0 hDds0 hDws0 hDdA hDwA
        (fun c _ => origin_ne_dest c "DT_LOCAL_QTHR")
        (fun c hc e => hKdA_qthr ((str_pfx_cancel e) ▸ hc))
        (fun c _ => origin_ne_dest c "DT_LOCAL_QTHR")
        (fun c hc e => hKwA_qthr ((str_pfx_cancel e) ▸ hc))
  · subst hKe
    refine ⟨hdropz _ ?_, hdropz _ ?_, hdropz _ ?_⟩
    · exact count_stepW_keydrop _ ws "DEST_" _ hncWD (fun c _ => dest_ne_hr c) (by decide)
    · exact hzero _ hOfs0 hOds0 hOws0 hOdA hOwA
        (fun c hc e => hKdA_hr ((str_pfx_cancel e) ▸ hc))
        (fun c _ => dest_ne_origin c "DT_LOCAL_HR")
        (fun c hc e => hKwA_hr ((str_pfx_cancel e) ▸ hc))
        (fun c _ => dest_ne_origin c "DT_LOCAL_HR")
    · exact hzero _ hDfs0 hDds0 hDws0 hDdA hDwA
        (fun c _ => origin_ne_dest c "DT_LOCAL_HR")
        (fun c hc e => hKdA_hr ((str_pfx_cancel e) ▸ hc))
        (fun c _ => origin_ne_dest c "DT_LOCAL_HR")
        (fun c hc e => hKwA_hr ((str_pfx_cancel e) ▸ hc))

/-! ### Claim C4 — directional prefixes in the final schema -/

/-- C4: for every non-key attribute column name C of the demand or the
weather table (not also a flight column, under sane schemas), every row of
the final output carries no bare column C, carries ORIGIN_C exactly once and
DEST_C exactly once, and carries the join-key/bucket columns ARPT_NAME,
DT_LOCAL_QTHR, DT_LOCAL_HR neither bare nor under either prefix. -/
theorem C4_directional_schema (fs ds ws : List ColName) (ft dt wt : Table) (C : ColName)
    (hwf_f : wfTable fs ft) (hwf_d : wfTable ds dt) (hwf_w : wfTable ws wt)
    (hsane : schemaSane (loadSchema drop_meta_cols fs)
      (loadSchema (drop_meta_cols ++ ["YEAR"]) ds)
      (loadSchema (drop_meta_cols ++ ["YEAR"]) ws))
    (hC : (C ∈ dAttrs (loadSchema (drop_meta_cols ++ ["YEAR"]) ds) ∧
        C ∉ loadSchema drop_meta_cols fs) ∨
      (C ∈ wAttrs (loadSchema (drop_meta_cols ++ ["YEAR"]) ws) ∧
        C ∉ loadSchema drop_meta_cols fs)) :
    ∀ r ∈ full_pipeline ds ws ft dt wt,
      (rowNames r).count C = 0 ∧
      (rowNames r).count ("ORIGIN_" ++ C) = 1 ∧
      (rowNames r).count ("DEST_" ++ C) = 1 ∧
      ∀ K ∈ (["ARPT_NAME", "DT_LOCAL_QTHR", "DT_LOCAL_HR"] : List ColName),
        (rowNames r).count K = 0 ∧ (rowNames r).count ("ORIGIN_" ++ K) = 0 ∧
        (rowNames r).count ("DEST_" ++ K) = 0 := by
  intro r hr
  have hnames := wfTable_full_pipeline hwf_f hwf_d hwf_w r hr
  rw [hnames]
  rcases hC with ⟨h1, h2⟩ | ⟨h1, h2⟩
  · obtain ⟨a, b, c⟩ := counts_final_demand _ _ _ C hsane h1 h2
    exact ⟨a, b, c, counts_final_keys _ _ _ hsane⟩
  · obtain ⟨a, b, c⟩ := counts_final_weather _ _ _ C hsane h1 h2
    exact ⟨a, b, c, counts_final_keys _ _ _ hsane⟩

theorem C4_directional_schema_witness :
    ("DMD_CNT" ∈ dAttrs (loadSchema (drop_meta_cols ++ ["YEAR"]) exDemandSchema) ∧
      "DMD_CNT" ∉ loadSchema drop_meta_cols exFlightSchema) ∧
    ((rowNames exOutRow).count "DMD_CNT" = 0 ∧
     (rowNames exOutRow).count ("ORIGIN_" ++ "DMD_CNT") = 1 ∧
     (rowNames exOutRow).count ("DEST_" ++ "DMD_CNT") = 1 ∧
     ∀ K ∈ (["ARPT_NAME", "DT_LOCAL_QTHR", "DT_LOCAL_HR"] : List ColName),
       (rowNames exOutRow).count K = 0 ∧ (rowNames exOutRow).count ("ORIGIN_" ++ K) = 0 ∧
       (rowNames exOutRow).count ("DEST_" ++ K) = 0) :=
  ⟨⟨by decide, by decide⟩,
    C4_directional_schema exFlightSchema exDemandSchema exWeatherSchema
      [exFlightRow] [exDemandRow] [exWeatherRow] "DMD_CNT"
      (by unfold wfTable; decide) (by unfold wfTable; decide) (by unfold wfTable; decide)
      (by unfold schemaSane; decide)
      (Or.inl ⟨by decide, by decide⟩) exOutRow (by decide)⟩

/-! ### Claim C9 — the rename pass is name-based, not provenance-based -/

/-- C9: the directional-prefix renaming pass renames every column whose name
occurs among the attribute columns, regardless of which side of the join it
came from: when the flight table itself carries a column named like a
non-key demand column C (once each side, prefixed names fresh), the first
merge stage leaves no column named C and two columns named ORIGIN_C — the
flight-side column was renamed along with the demand-side one. -/
theorem C9_name_based_rename (fs ds : List ColName) (ft dt : Table) (C : ColName)
    (hwf_f : wfTable fs ft) (hwf_d : wfTable ds dt)
    (hC : C ∈ dAttrs ds) (hCfs : C ∈ fs) (hfs1 : fs.count C = 1) (hds1 : ds.count C = 1)
    (hfresh : ∀ n ∈ fs ++ ds, ∀ c ∈ dAttrs ds, n ≠ "ORIGIN_" ++ c) :
    ∀ r ∈ mergeStep ft dt ds demandKeys "ORIGIN_" predOriginDemand,
      (rowNames r).count C = 0 ∧ (rowNames r).count ("ORIGIN_" ++ C) = 2 := by
  intro r hr
  have hnames :=
    wfTable_mergeStep demandKeys "ORIGIN_" predOriginDemand hwf_f hwf_d r hr
  rw [hnames]
  have hncDO : ∀ c ∈ dAttrs ds, ("ORIGIN_" ++ c) ∉ dAttrs ds := fun c hc hm =>
    hfresh _ (List.mem_append.mpr (Or.inr (mem_dAttrs_sub hm))) c hc rfl
  have hfig : ∀ x ∈ dAttrs ds, "ORIGIN_" ++ x ≠ C := fun x hx e =>
    hfresh C (List.mem_append.mpr (Or.inl hCfs)) x hx e.symm
  have hOCfs0 : fs.count ("ORIGIN_" ++ C) = 0 :=
    count_zero_of_not_mem
      (fun hm => hfresh _ (List.mem_append.mpr (Or.inl hm)) C hC rfl)
  have hOCds0 : ds.count ("ORIGIN_" ++ C) = 0 :=
    count_zero_of_not_mem
      (fun hm => hfresh _ (List.mem_append.mpr (Or.inr hm)) C hC rfl)
  refine ⟨count_stepD_self fs ds "ORIGIN_" C hncDO hC hfig, ?_⟩
  rw [count_stepD_hit fs ds "ORIGIN_" C hncDO hC
      (contains_false_of_not_mem (origin_not_in_dkeys C))]
  rw [hfs1, hds1, hOCfs0, hOCds0]

/-- Flight row that itself carries a `DMD_CNT` column. -/
def c9FlightRow : Row :=
  [("ORIGIN", some (.str "JFK")), ("DEST", some (.str "LAX")),
   ("DEP_TIME_DT_LOCAL_QTHR", some (.int 1)), ("DMD_CNT", some (.int 55))]

/-- Demand row with attribute column `DMD_CNT`. -/
def c9DemandRow : Row :=
  [("ARPT_NAME", some (.str "JFK")), ("DT_LOCAL_QTHR", some (.int 1)),
   ("DMD_CNT", some (.int 7))]

/-- Output row of the first merge stage on the two rows above: both `DMD_CNT`
columns got the `ORIGIN_` prefix. -/
def c9OutRow : Row :=
  [("ORIGIN", some (.str "JFK")), ("DEST", some (.str "LAX")),
   ("DEP_TIME_DT_LOCAL_QTHR", some (.int 1)), ("ORIGIN_DMD_CNT", some (.int 55)),
   ("ORIGIN_DMD_CNT", some (.int 7))]

theorem C9_name_based_rename_witness :
    ("DMD_CNT" ∈ dAttrs (rowNames c9DemandRow) ∧ "DMD_CNT" ∈ rowNames c9FlightRow) ∧
    c9OutRow ∈ mergeStep [c9FlightRow] [c9DemandRow] (rowNames c9DemandRow) demandKeys
      "ORIGIN_" predOriginDemand ∧
    (rowNames c9OutRow).count "DMD_CNT" = 0 ∧
    (rowNames c9OutRow).count ("ORIGIN_" ++ "DMD_CNT") = 2 :=
  ⟨⟨by decide, by decide⟩, by decide,
    C9_name_based_rename (rowNames c9FlightRow) (rowNames c9DemandRow)
      [c9FlightRow] [c9DemandRow] "DMD_CNT" (by unfold wfTable; decide)
      (by unfold wfTable; decide) (by decide)
      (by decide) (by decide) (by decide) (by decide) c9OutRow (by decide)⟩

/-! ### Claim C5 — leakage columns removed, other flight columns retained -/

theorem not_mem_rowNames_dropRowCols {cols : List ColName} {r : Row} {n : ColName}
    (hn : n ∈ cols) : n ∉ rowNames (dropRowCols cols r) := by
  intro hm
  rw [rowNames_dropRowCols] at hm
  have := (List.mem_filter.mp hm).2
  simp at this
  exact this hn

/-- C5: the final output schema excludes all eight designated leakage columns
(each ARR_/DEP_ prefix with each TIME_DT_LOCAL{,_DAY,_HR,_QTHR} suffix),
while every other flight-table column — one that is not itself a
removed/bucket/key column, not named like an attribute column, and (under
sane schemas) not spelt like a prefixed name — is retained in every row. -/
theorem C5_leakage_columns (fs ds ws : List ColName) (ft dt wt : Table) (c : ColName)
    (hwf_f : wfTable fs ft) (hwf_d : wfTable ds dt) (hwf_w : wfTable ws wt)
    (hsane : schemaSane (loadSchema drop_meta_cols fs)
      (loadSchema (drop_meta_cols ++ ["YEAR"]) ds)
      (loadSchema (drop_meta_cols ++ ["YEAR"]) ws))
    (hcfs : c ∈ loadSchema drop_meta_cols fs)
    (hcrm : c ∉ ad_remove_cols ++ od_remove_cols)
    (hck : c ∉ (["ARPT_NAME", "DT_LOCAL_QTHR", "DT_LOCAL_HR"] : List ColName))
    (hcdA : c ∉ dAttrs (loadSchema (drop_meta_cols ++ ["YEAR"]) ds))
    (hcwA : c ∉ wAttrs (loadSchema (drop_meta_cols ++ ["YEAR"]) ws)) :
    (∀ r ∈ full_pipeline ds ws ft dt wt, ∀ n ∈ ad_remove_cols, n ∉ rowNames r) ∧
    (∀ r ∈ full_pipeline ds ws ft dt wt, c ∈ rowNames r) := by
  obtain ⟨hndD, hndW, hQW, hHD, hDW, hWD, hfresh⟩ := hsane
  constructor
  · intro r hr n hn
    rcases List.mem_map.mp hr with ⟨r', _, heq⟩
    rw [← heq]
    exact not_mem_rowNames_dropRowCols (by simp [hn])
  · intro r hr
    have hnames := wfTable_full_pipeline hwf_f hwf_d hwf_w r hr
    rw [hnames]
    have hncDO : ∀ x ∈ dAttrs (loadSchema (drop_meta_cols ++ ["YEAR"]) ds),
        ("ORIGIN_" ++ x) ∉ dAttrs (loadSchema (drop_meta_cols ++ ["YEAR"]) ds) :=
      fun x hx hm => (hfresh _ (mem_u_ds (mem_dAttrs_sub hm)) x (memc_d hx)).1 rfl
    have hncDD : ∀ x ∈ dAttrs (loadSchema (drop_meta_cols ++ ["YEAR"]) ds),
        ("DEST_" ++ x) ∉ dAttrs (loadSchema (drop_meta_cols ++ ["YEAR"]) ds) :=
      fun x hx hm => (hfresh _ (mem_u_ds (mem_dAttrs_sub hm)) x (memc_d hx)).2 rfl
    have hncWO : ∀ x ∈ wAttrs (loadSchema (drop_meta_cols ++ ["YEAR"]) ws),
        ("ORIGIN_" ++ x) ∉ wAttrs (loadSchema (drop_meta_cols ++ ["YEAR"]) ws) :=
      fun x hx hm => (hfresh _ (mem_u_ws (mem_wAttrs_sub hm)) x (memc_w hx)).1 rfl
    have hncWD : ∀ x ∈ wAttrs (loadSchema (drop_meta_cols ++ ["YEAR"]) ws),
        ("DEST_" ++ x) ∉ wAttrs (loadSchema (drop_meta_cols ++ ["YEAR"]) ws) :=
      fun x hx hm => (hfresh _ (mem_u_ws (mem_wAttrs_sub hm)) x (memc_w hx)).2 rfl
    have hfigDO : ∀ x ∈ dAttrs (loadSchema (drop_meta_cols ++ ["YEAR"]) ds),
        "ORIGIN_" ++ x ≠ c := fun x hx e =>
      (hfresh c (mem_u_fs hcfs) x (memc_d hx)).1 e.symm
    have hfigDD : ∀ x ∈ dAttrs (loadSchema (drop_meta_cols ++ ["YEAR"]) ds),
        "DEST_" ++ x ≠ c := fun x hx e =>
      (hfresh c (mem_u_fs hcfs) x (memc_d hx)).2 e.symm
    have hfigWO : ∀ x ∈ wAttrs (loadSchema (drop_meta_cols ++ ["YEAR"]) ws),
        "ORIGIN_" ++ x ≠ c := fun x hx e =>
      (hfresh c (mem_u_fs hcfs) x (memc_w hx)).1 e.symm
    have hfigWD : ∀ x ∈ wAttrs (loadSchema (drop_meta_cols ++ ["YEAR"]) ws),
        "DEST_" ++ x ≠ c := fun x hx e =>
      (hfresh c (mem_u_fs hcfs) x (memc_w hx)).2 e.symm
    have hcne1 : c ≠ "ARPT_NAME" := fun e => hck (by simp [e])
    have hcne2 : c ≠ "DT_LOCAL_QTHR" := fun e => hck (by simp [e])
    have hcne3 : c ≠ "DT_LOCAL_HR" := fun e => hck (by simp [e])
    have hcds0 : (loadSchema (drop_meta_cols ++ ["YEAR"]) ds).count c = 0 := by
      refine count_zero_of_not_mem (fun hm => ?_)
      by_cases hk : demandKeys.contains c = true
      · rcases (by simpa [demandKeys] using hk : c = "ARPT_NAME" ∨ c = "DT_LOCAL_QTHR")
          with h | h
        · exact hcne1 h
        · exact hcne2 h
      · exact hcdA (List.mem_filter.mpr ⟨hm, by simpa using hk⟩)
    have hcws0 : (loadSchema (drop_meta_cols ++ ["YEAR"]) ws).count c = 0 := by
      refine count_zero_of_not_mem (fun hm => ?_)
      by_cases hk : weatherKeys.contains c = true
      · rcases (by simpa [weatherKeys] using hk : c = "ARPT_NAME" ∨ c = "DT_LOCAL_HR")
          with h | h
        · exact hcne1 h
        · exact hcne3 h
      · exact hcwA (List.mem_filter.mpr ⟨hm, by simpa using hk⟩)
    have hkcd : demandKeys.contains c = false := by
      refine contains_false_of_not_mem (fun hm => ?_)
      rcases (by simpa [demandKeys] using hm : c = "ARPT_NAME" ∨ c = "DT_LOCAL_QTHR")
        with h | h
      · exact hcne1 h
      · exact hcne2 h
    have hkcw : weatherKeys.contains c = false := by
      refine contains_false_of_not_mem (fun hm => ?_)
      rcases (by simpa [weatherKeys] using hm : c = "ARPT_NAME" ∨ c = "DT_LOCAL_HR")
        with h | h
      · exact hcne1 h
      · exact hcne3 h
    have s1c : (mergeStepNames (loadSchema drop_meta_cols fs)
        (loadSchema (drop_meta_cols ++ ["YEAR"]) ds) demandKeys "ORIGIN_").count c
        = (loadSchema drop_meta_cols fs).count c := by
      rw [count_stepD_miss _ _ "ORIGIN_" c hncDO hcdA hfigDO, hkcd]
      simp [hcds0]
    have s2c : (mergeStepNames (mergeStepNames (loadSchema drop_meta_cols fs)
        (loadSchema (drop_meta_cols ++ ["YEAR"]) ds) demandKeys "ORIGIN_")
        (loadSchema (drop_meta_cols ++ ["YEAR"]) ds) demandKeys "DEST_").count c
        = (loadSchema drop_meta_cols fs).count c := by
      rw [count_stepD_miss _ _ "DEST_" c hncDD hcdA hfigDD, hkcd]
      simp [s1c, hcds0]
    have s3c : (mergeStepNames (mergeStepNames (mergeStepNames
        (loadSchema drop_meta_cols fs)
        (loadSchema (drop_meta_cols ++ ["YEAR"]) ds) demandKeys "ORIGIN_")
        (loadSchema (drop_meta_cols ++ ["YEAR"]) ds) demandKeys "DEST_")
        (loadSchema (drop_meta_cols ++ ["YEAR"]) ws) weatherKeys "ORIGIN_").count c
        = (loadSchema drop_meta_cols fs).count c := by
      rw [count_stepW_miss _ _ "ORIGIN_" c hncWO hcwA hfigWO, hkcw]
      simp [s2c, hcws0]
    have s4c : (mgNames (loadSchema (drop_meta_cols ++ ["YEAR"]) ds)
        (loadSchema (drop_meta_cols ++ ["YEAR"]) ws)
        (loadSchema drop_meta_cols fs)).count c
        = (loadSchema drop_meta_cols fs).count c := by
      rw [show mgNames (loadSchema (drop_meta_cols ++ ["YEAR"]) ds)
          (loadSchema (drop_meta_cols ++ ["YEAR"]) ws) (loadSchema drop_meta_cols fs)
          = mergeStepNames (mergeStepNames (mergeStepNames (mergeStepNames
            (loadSchema drop_meta_cols fs)
            (loadSchema (drop_meta_cols ++ ["YEAR"]) ds) demandKeys "ORIGIN_")
            (loadSchema (drop_meta_cols ++ ["YEAR"]) ds) demandKeys "DEST_")
            (loadSchema (drop_meta_cols ++ ["YEAR"]) ws) weatherKeys "ORIGIN_")
            (loadSchema (drop_meta_cols ++ ["YEAR"]) ws) weatherKeys "DEST_" from rfl]
      rw [count_stepW_miss _ _ "DEST_" c hncWD hcwA hfigWD, hkcw]
      simp [s3c, hcws0]
    have hfinal : (pipelineNames (loadSchema (drop_meta_cols ++ ["YEAR"]) ds)
        (loadSchema (drop_meta_cols ++ ["YEAR"]) ws)
        (loadSchema drop_meta_cols fs)).count c
        = (loadSchema drop_meta_cols fs).count c := by
      rw [show pipelineNames (loadSchema (drop_meta_cols ++ ["YEAR"]) ds)
          (loadSchema (drop_meta_cols ++ ["YEAR"]) ws) (loadSchema drop_meta_cols fs)
          = dropNames (ad_remove_cols ++ od_remove_cols)
            (mgNames (loadSchema (drop_meta_cols ++ ["YEAR"]) ds)
              (loadSchema (drop_meta_cols ++ ["YEAR"]) ws)
              (loadSchema drop_meta_cols fs)) from rfl,
        count_dropNames, contains_false_of_not_mem hcrm, s4c]
      simp
    by_contra hnm
    have h0 := List.count_eq_zero.mpr hnm
    rw [hfinal] at h0
    exact (List.count_eq_zero.mp h0) hcfs

theorem C5_leakage_columns_witness :
    ("FL_ID" ∈ loadSchema drop_meta_cols exFlightSchema ∧
      "FL_ID" ∉ ad_remove_cols ++ od_remove_cols) ∧
    ("ARR_TIME_DT_LOCAL" ∈ ad_remove_cols ∧
      "ARR_TIME_DT_LOCAL" ∉ rowNames exOutRow) ∧
    "FL_ID" ∈ rowNames exOutRow :=
  ⟨⟨by decide, by decide⟩,
    ⟨by decide,
      (C5_leakage_columns exFlightSchema exDemandSchema exWeatherSchema
        [exFlightRow] [exDemandRow] [exWeatherRow] "FL_ID"
        (by unfold wfTable; decide) (by unfold wfTable; decide) (by unfold wfTable; decide)
        (by unfold schemaSane; decide) (by decide) (by decide) (by decide) (by decide)
        (by decide)).1 exOutRow (by decide) "ARR_TIME_DT_LOCAL" (by decide)⟩,
    (C5_leakage_columns exFlightSchema exDemandSchema exWeatherSchema
      [exFlightRow] [exDemandRow] [exWeatherRow] "FL_ID"
      (by unfold wfTable; decide) (by unfold wfTable; decide) (by unfold wfTable; decide)
      (by unfold schemaSane; decide) (by decide) (by decide) (by decide) (by decide)
      (by decide)).2 exOutRow (by decide)⟩

/-! ### Tracking cell values through the stages (for claims C2 and C3) -/

/-- Every cell of the table sitting in a column named `n` is null. -/
def noVal (n : ColName) (t : Table) : Prop :=
  ∀ r ∈ t, ∀ p ∈ r, p.1 = n → p.2 = none

theorem mem_nullRowOf {p : ColName × Cell} {s : List ColName} (h : p ∈ nullRowOf s) :
    p.2 = none := by
  rcases List.mem_map.mp h with ⟨c, _, heq⟩
  rw [← heq]

theorem noVal_leftJoin {n : ColName} {L R : Table} {s : List ColName}
    {pred : Row → Row → Bool} (hL : noVal n L) (hR : ∀ rr ∈ R, n ∉ rowNames rr) :
    noVal n (leftJoin L R s pred) := by
  intro r hr p hp hpn
  rcases mem_leftJoin hr with ⟨l, hl, hcase⟩
  rcases hcase with heq | ⟨rr, hrr, _, heq⟩
  · rw [heq] at hp
    rcases List.mem_append.mp hp with h | h
    · exact hL l hl p h hpn
    · exact mem_nullRowOf h
  · rw [heq] at hp
    rcases List.mem_append.mp hp with h | h
    · exact hL l hl p h hpn
    · exact absurd (hpn ▸ List.mem_map_of_mem Prod.fst h) (hR rr hrr)

theorem noVal_dropCols {n : ColName} {cols : List ColName} {t : Table}
    (h : noVal n t) : noVal n (dropCols cols t) := by
  intro r hr p hp hpn
  rcases List.mem_map.mp hr with ⟨r', hr', heq⟩
  refine h r' hr' p ?_ hpn
  rw [← heq] at hp
  exact (List.mem_filter.mp hp).1

theorem noVal_add_col_pfx {n : ColName} {t : Table} (update : List ColName)
    (pfx : String) (ign : List ColName)
    (hnc : ∀ c ∈ update.filter (fun cc => !(ign.contains cc)),
      (pfx ++ c) ∉ update.filter (fun cc => !(ign.contains cc)))
    (hcre : ∀ x ∈ update.filter (fun cc => !(ign.contains cc)), pfx ++ x ≠ n)
    (h : noVal n t) : noVal n (add_col_pfx t update pfx ign) := by
  rw [add_col_pfx_eq_map t update pfx ign hnc]
  intro r hr p hp hpn
  rcases List.mem_map.mp hr with ⟨r', hr', heqr⟩
  rw [← heqr] at hp
  rcases List.mem_map.mp hp with ⟨q, hq, heq⟩
  by_cases hm : q.1 ∈ update.filter (fun cc => !(ign.contains cc))
  · exfalso
    apply hcre q.1 hm
    rw [← hpn, ← heq]
    exact (renFn_pos pfx hm).symm
  · have h1 : p.1 = q.1 := by
      rw [← heq]
      exact renFn_neg pfx hm
    have h2 : p.2 = q.2 := by rw [← heq]
    rw [h2]
    exact h r' hr' q hq (h1 ▸ hpn)

theorem noVal_mergeStep {n : ColName} {t R : Table} {s keys : List ColName}
    {pfx : String} {pred : Row → Row → Bool}
    (hR : ∀ rr ∈ R, n ∉ rowNames rr)
    (hnc : ∀ c ∈ s.filter (fun cc => !(keys.contains cc)),
      (pfx ++ c) ∉ s.filter (fun cc => !(keys.contains cc)))
    (hcre : ∀ x ∈ s.filter (fun cc => !(keys.contains cc)), pfx ++ x ≠ n)
    (h : noVal n t) : noVal n (mergeStep t R s keys pfx pred) :=
  noVal_add_col_pfx s pfx keys hnc hcre (noVal_dropCols (noVal_leftJoin h hR))

theorem leftJoin_nomatch {l : Row} {R : Table} {s : List ColName}
    {pred : Row → Row → Bool} (h : ∀ rr ∈ R, pred l rr = false) :
    leftJoin [l] R s pred = [l ++ nullRowOf s] := by
  unfold leftJoin
  simp only [List.flatMap_cons, List.flatMap_nil, List.append_nil]
  have hnil : R.filter (fun r => pred l r) = [] :=
    List.filter_eq_nil_iff.mpr (fun rr hrr => by simp [h rr hrr])
  rw [hnil]
  rfl

theorem fillnaRow_isSome {v : Value} {subset : List ColName} {r : Row} :
    ∀ p ∈ fillnaRow v subset r, p.1 ∈ subset → p.2.isSome = true := by
  intro p hp hmem
  rcases List.mem_map.mp hp with ⟨q, hq, heq⟩
  by_cases hcond : (subset.contains q.1 && q.2.isNone) = true
  · rw [← heq, if_pos hcond]
    rfl
  · rw [← heq] at hmem ⊢
    rw [if_neg hcond] at hmem ⊢
    cases hv : q.2 with
    | none =>
      exfalso
      apply hcond
      simp [hv]
      simpa using hmem
    | some w => simp [hv]

theorem allVal_fillna {n : ColName} {t : Table} {v : Value} {subset : List ColName}
    (h : noVal n t) (hsub : n ∈ subset) :
    ∀ r ∈ fillna v subset t, ∀ p ∈ r, p.1 = n → p.2 = some v := by
  intro r hr p hp hpn
  rcases List.mem_map.mp hr with ⟨r', hr', heqr⟩
  rw [← heqr] at hp
  rcases List.mem_map.mp hp with ⟨q, hq, heq⟩
  have hq1 : q.1 = n := by
    rw [← hpn, ← heq]
    by_cases hcond : (subset.contains q.1 && q.2.isNone) = true
    · rw [if_pos hcond]
    · rw [if_neg hcond]
  have hq2 : q.2 = none := h r' hr' q hq hq1
  have hcond : (subset.contains q.1 && q.2.isNone) = true := by
    rw [hq1, hq2]
    simpa using hsub
  rw [← heq, if_pos hcond]

theorem allVal_dropRowCols {n : ColName} {cols : List ColName} {r : Row} {w : Cell}
    (h : ∀ p ∈ r, p.1 = n → p.2 = w) :
    ∀ p ∈ dropRowCols cols r, p.1 = n → p.2 = w := fun p hp =>
  h p (List.mem_filter.mp hp).1

theorem lookup_eq_of_all {r : Row} {n : ColName} {w : Cell}
    (h : ∀ p ∈ r, p.1 = n → p.2 = w) (hm : n ∈ rowNames r) : lookup r n = w := by
  induction r with
  | nil => simp [rowNames] at hm
  | cons q r ih =>
    obtain ⟨a, b⟩ := q
    simp only [lookup]
    by_cases han : a = n
    · rw [if_pos han]
      exact h (a, b) (List.mem_cons_self _ _) han
    · rw [if_neg han]
      refine ih (fun p hp hpn => h p (List.mem_cons_of_mem _ hp) hpn) ?_
      have hm2 : n ∈ (a :: rowNames r) := by
        simpa only [rowNames, List.map_cons] using hm
      rcases List.mem_cons.mp hm2 with h1 | h1
      · exact absurd h1.symm han
      · exact h1

/-! ### Claim C2 — the zero-fill of the demand columns -/

theorem mem_demand_attr_origin {ds : List ColName} {c : ColName}
    (h : c ∈ dAttrs ds) (hy : c ≠ "YEAR") :
    ("ORIGIN_" ++ c) ∈ arpt_demand_attr_cols ds := by
  have hk : demandKeys.contains c = false := mem_attr_not_key h
  have h1 : c ≠ "ARPT_NAME" := by
    intro e
    rw [e] at hk
    exact absurd hk (by decide)
  have h2 : c ≠ "DT_LOCAL_QTHR" := by
    intro e
    rw [e] at hk
    exact absurd hk (by decide)
  unfold arpt_demand_attr_cols
  refine List.mem_flatMap.mpr ⟨"ORIGIN_", by decide, ?_⟩
  refine List.mem_map.mpr ⟨c, ?_, rfl⟩
  refine List.mem_filter.mpr ⟨mem_dAttrs_sub h, ?_⟩
  simp [hy, h1, h2]

/-- C2: after the fill step no demand attribute column holds a null in any
output row; and a single flight row whose (origin, departure quarter-hour)
key matches no demand row comes out with value 0 in every ORIGIN_-prefixed
demand column (stated via `lookup` for each demand attribute c). -/
theorem C2_zero_fill (ds ws : List ColName) (dt wt : Table) (fr : Row) (ft : Table)
    (c : ColName) (hwf_d : wfTable ds dt) (hwf_w : wfTable ws wt)
    (hsane : schemaSane (loadSchema drop_meta_cols (rowNames fr))
      (loadSchema (drop_meta_cols ++ ["YEAR"]) ds)
      (loadSchema (drop_meta_cols ++ ["YEAR"]) ws))
    (hc : c ∈ dAttrs (loadSchema (drop_meta_cols ++ ["YEAR"]) ds))
    (hcfr : c ∉ rowNames fr)
    (hnomatch : ∀ d ∈ load_arpt_demand dt,
      predOriginDemand (dropRowCols drop_meta_cols fr) d = false) :
    (∀ r ∈ full_pipeline ds ws ft dt wt, ∀ p ∈ r,
      p.1 ∈ arpt_demand_attr_cols (loadSchema (drop_meta_cols ++ ["YEAR"]) ds) →
      p.2.isSome = true) ∧
    (∀ r ∈ full_pipeline ds ws [fr] dt wt,
      lookup r ("ORIGIN_" ++ c) = some (Value.int 0)) := by
  constructor
  · intro r hr p hp hmem
    have e : full_pipeline ds ws ft dt wt
        = dropCols (ad_remove_cols ++ od_remove_cols)
            (fillna (.int 0)
              (arpt_demand_attr_cols (loadSchema (drop_meta_cols ++ ["YEAR"]) ds))
              (nas_flights_mg (loadSchema (drop_meta_cols ++ ["YEAR"]) ds)
                (loadSchema (drop_meta_cols ++ ["YEAR"]) ws) (load_nas_flights ft)
                (load_arpt_demand dt) (load_arpt_weather wt))) := rfl
    rw [e] at hr
    rcases List.mem_map.mp hr with ⟨r1, hr1, heq⟩
    rcases List.mem_map.mp hr1 with ⟨r2, _, heq2⟩
    rw [← heq] at hp
    have hp1 : p ∈ r1 := (List.mem_filter.mp hp).1
    rw [← heq2] at hp1
    exact fillnaRow_isSome p hp1 hmem
  · obtain ⟨hndD, hndW, hQW, hHD, hDW, hWD, hfresh⟩ := hsane
    have hcds : c ∈ loadSchema (drop_meta_cols ++ ["YEAR"]) ds := mem_dAttrs_sub hc
    have hcnw : c ∉ loadSchema (drop_meta_cols ++ ["YEAR"]) ws := hDW c hc
    have hcwA : c ∉ wAttrs (loadSchema (drop_meta_cols ++ ["YEAR"]) ws) := fun hm =>
      hcnw (mem_wAttrs_sub hm)
    have hOCf : ∀ m ∈ loadSchema drop_meta_cols (rowNames fr) ++
        loadSchema (drop_meta_cols ++ ["YEAR"]) ds ++
        loadSchema (drop_meta_cols ++ ["YEAR"]) ws, m ≠ "ORIGIN_" ++ c := fun m hm =>
      (hfresh m hm c (memc_d hc)).1
    have hOCmeta : ("ORIGIN_" ++ c) ∉ drop_meta_cols := by
      intro hmm
      rcases (by simpa [drop_meta_cols] using hmm :
          "ORIGIN_" ++ c = "__null_dask_index__" ∨ "ORIGIN_" ++ c = "__index_level_0__")
        with h | h
      · exact append_ne_lit3 c origin_data (by decide) h
      · exact append_ne_lit3 c origin_data (by decide) h
    have hOCfr : ("ORIGIN_" ++ c) ∉ rowNames fr := fun hm =>
      hOCf _ (mem_u_fs (List.mem_filter.mpr ⟨hm, by simpa using hOCmeta⟩)) rfl
    have hOCds : ("ORIGIN_" ++ c) ∉ loadSchema (drop_meta_cols ++ ["YEAR"]) ds :=
      fun hm => hOCf _ (mem_u_ds hm) rfl
    have hOCws : ("ORIGIN_" ++ c) ∉ loadSchema (drop_meta_cols ++ ["YEAR"]) ws :=
      fun hm => hOCf _ (mem_u_ws hm) rfl
    have hwfD : wfTable (loadSchema (drop_meta_cols ++ ["YEAR"]) ds) (load_arpt_demand dt) :=
      wfTable_dropCols _ hwf_d
    have hwfW : wfTable (loadSchema (drop_meta_cols ++ ["YEAR"]) ws) (load_arpt_weather wt) :=
      wfTable_dropCols _ hwf_w
    have hRd : ∀ rr ∈ load_arpt_demand dt, ("ORIGIN_" ++ c) ∉ rowNames rr := fun rr hrr => by
      rw [hwfD rr hrr]
      exact hOCds
    have hRw : ∀ rr ∈ load_arpt_weather wt, ("ORIGIN_" ++ c) ∉ rowNames rr := fun rr hrr => by
      rw [hwfW rr hrr]
      exact hOCws
    have hncDO : ∀ x ∈ dAttrs (loadSchema (drop_meta_cols ++ ["YEAR"]) ds),
        ("ORIGIN_" ++ x) ∉ dAttrs (loadSchema (drop_meta_cols ++ ["YEAR"]) ds) :=
      fun x hx hm => (hfresh _ (mem_u_ds (mem_dAttrs_sub hm)) x (memc_d hx)).1 rfl
    have hncDD : ∀ x ∈ dAttrs (loadSchema (drop_meta_cols ++ ["YEAR"]) ds),
        ("DEST_" ++ x) ∉ dAttrs (loadSchema (drop_meta_cols ++ ["YEAR"]) ds) :=
      fun x hx hm => (hfresh _ (mem_u_ds (mem_dAttrs_sub hm)) x (memc_d hx)).2 rfl
    have hncWO : ∀ x ∈ wAttrs (loadSchema (drop_meta_cols ++ ["YEAR"]) ws),
        ("ORIGIN_" ++ x) ∉ wAttrs (loadSchema (drop_meta_cols ++ ["YEAR"]) ws) :=
      fun x hx hm => (hfresh _ (mem_u_ws (mem_wAttrs_sub hm)) x (memc_w hx)).1 rfl
    have hncWD : ∀ x ∈ wAttrs (loadSchema (drop_meta_cols ++ ["YEAR"]) ws),
        ("DEST_" ++ x) ∉ wAttrs (loadSchema (drop_meta_cols ++ ["YEAR"]) ws) :=
      fun x hx hm => (hfresh _ (mem_u_ws (mem_wAttrs_sub hm)) x (memc_w hx)).2 rfl
    -- the first merge stage on the unmatched single flight row
    have hm1 : mergeStep (load_nas_flights [fr]) (load_arpt_demand dt)
        (loadSchema (drop_meta_cols ++ ["YEAR"]) ds) demandKeys "ORIGIN_" predOriginDemand
        = add_col_pfx (dropCols demandKeys
            [dropRowCols drop_meta_cols fr ++
              nullRowOf (loadSchema (drop_meta_cols ++ ["YEAR"]) ds)])
            (loadSchema (drop_meta_cols ++ ["YEAR"]) ds) "ORIGIN_" demandKeys := by
      unfold mergeStep
      rw [show load_nas_flights [fr] = [dropRowCols drop_meta_cols fr] from rfl,
        leftJoin_nomatch hnomatch]
    have hnoval1 : noVal ("ORIGIN_" ++ c)
        (mergeStep (load_nas_flights [fr]) (load_arpt_demand dt)
          (loadSchema (drop_meta_cols ++ ["YEAR"]) ds) demandKeys "ORIGIN_"
          predOriginDemand) := by
      rw [hm1, add_col_pfx_eq_map _ _ _ _ hncDO]
      intro r hr p hp hpn
      rcases List.mem_map.mp hr with ⟨r', hr', heqr⟩
      rw [← heqr] at hp
      rcases List.mem_map.mp hp with ⟨q, hq, heq⟩
      have hq0 : q ∈ dropRowCols drop_meta_cols fr ++
          nullRowOf (loadSchema (drop_meta_cols ++ ["YEAR"]) ds) := by
        have hr'2 : r' ∈ [dropRowCols demandKeys (dropRowCols drop_meta_cols fr ++
            nullRowOf (loadSchema (drop_meta_cols ++ ["YEAR"]) ds))] := hr'
        rcases (by simpa using hr'2 :
            r' = dropRowCols demandKeys (dropRowCols drop_meta_cols fr ++
              nullRowOf (loadSchema (drop_meta_cols ++ ["YEAR"]) ds))) with rfl
        exact (List.mem_filter.mp hq).1
      rcases List.mem_append.mp hq0 with hqf | hqn
      · exfalso
        have hq1fr : q.1 ∈ rowNames fr :=
          List.mem_map_of_mem Prod.fst (List.mem_filter.mp hqf).1
        by_cases hmA : q.1 ∈ dAttrs (loadSchema (drop_meta_cols ++ ["YEAR"]) ds)
        · have : "ORIGIN_" ++ q.1 = "ORIGIN_" ++ c := by
            rw [← hpn, ← heq]
            exact (renFn_pos "ORIGIN_" hmA).symm
          exact hcfr ((str_pfx_cancel this) ▸ hq1fr)
        · have : q.1 = "ORIGIN_" ++ c := by
            rw [← hpn, ← heq]
            exact (renFn_neg "ORIGIN_" hmA).symm
          exact hOCfr (this ▸ hq1fr)
      · have h2 : p.2 = q.2 := by rw [← heq]
        rw [h2]
        exact mem_nullRowOf hqn
    -- the three remaining merge stages keep the column null
    have hnoval4 : noVal ("ORIGIN_" ++ c)
        (nas_flights_mg (loadSchema (drop_meta_cols ++ ["YEAR"]) ds)
          (loadSchema (drop_meta_cols ++ ["YEAR"]) ws) (load_nas_flights [fr])
          (load_arpt_demand dt) (load_arpt_weather wt)) := by
      refine noVal_mergeStep hRw hncWD (fun x _ => dest_ne_origin x c) ?_
      refine noVal_mergeStep hRw hncWO
        (fun x hx e => hcwA ((str_pfx_cancel e) ▸ hx)) ?_
      refine noVal_mergeStep hRd hncDD (fun x _ => dest_ne_origin x c) ?_
      exact hnoval1
    -- the fill turns the nulls into zeros, the final drop keeps them
    have hy : c ≠ "YEAR" := by
      intro e
      apply absurd hcds
      rw [e]
      intro hm
      have := (List.mem_filter.mp hm).2
      simp [drop_meta_cols] at this
    have hsub : ("ORIGIN_" ++ c) ∈
        arpt_demand_attr_cols (loadSchema (drop_meta_cols ++ ["YEAR"]) ds) :=
      mem_demand_attr_origin hc hy
    intro r hr
    have e : full_pipeline ds ws [fr] dt wt
        = dropCols (ad_remove_cols ++ od_remove_cols)
            (fillna (.int 0)
              (arpt_demand_attr_cols (loadSchema (drop_meta_cols ++ ["YEAR"]) ds))
              (nas_flights_mg (loadSchema (drop_meta_cols ++ ["YEAR"]) ds)
                (loadSchema (drop_meta_cols ++ ["YEAR"]) ws) (load_nas_flights [fr])
                (load_arpt_demand dt) (load_arpt_weather wt))) := rfl
    have hall : ∀ p ∈ r, p.1 = "ORIGIN_" ++ c → p.2 = some (Value.int 0) := by
      rw [e] at hr
      rcases List.mem_map.mp hr with ⟨r1, hr1, heq⟩
      rw [← heq]
      exact allVal_dropRowCols (allVal_fillna hnoval4 hsub r1 hr1)
    have hwfF : wfTable (rowNames fr) [fr] := by
      intro r' hr'
      rcases (by simpa using hr' : r' = fr) with rfl
      rfl
    have hnames := wfTable_full_pipeline hwfF hwf_d hwf_w r hr
    have hcfsL : c ∉ loadSchema drop_meta_cols (rowNames fr) := fun hm =>
      hcfr (List.mem_filter.mp hm).1
    have hcount := (counts_final_demand _ _ _ c
      ⟨hndD, hndW, hQW, hHD, hDW, hWD, hfresh⟩ hc hcfsL).2.1
    have hmemOC : ("ORIGIN_" ++ c) ∈ rowNames r := by
      rw [hnames]
      by_contra hnm
      rw [List.count_eq_zero.mpr hnm] at hcount
      exact absurd hcount (by decide)
    exact lookup_eq_of_all hall hmemOC

/-- Flight row whose (ORIGIN, DEP quarter-hour) key matches no demand row. -/
def c2FlightRow : Row :=
  [("FL_ID", some (.int 2)), ("ORIGIN", some (.str "SFO")), ("DEST", some (.str "LAX")),
   ("DEP_TIME_DT_LOCAL_QTHR", some (.int 9)), ("ARR_TIME_DT_LOCAL_QTHR", some (.int 2)),
   ("DEP_TIME_DT_LOCAL_HR", some (.int 10)), ("ARR_TIME_DT_LOCAL_HR", some (.int 11)),
   ("YYYYMM", some (.int 202001))]

/-- Pipeline output for the unmatched flight row: demand columns zero-filled,
weather columns left null. -/
def c2OutRow : Row :=
  [("FL_ID", some (.int 2)), ("ORIGIN", some (.str "SFO")), ("DEST", some (.str "LAX")),
   ("YYYYMM", some (.int 202001)), ("ORIGIN_DMD_CNT", some (.int 0)),
   ("DEST_DMD_CNT", some (.int 0)), ("ORIGIN_TEMP", none), ("DEST_TEMP", none)]

theorem C2_zero_fill_witness :
    (∀ d ∈ load_arpt_demand [exDemandRow],
      predOriginDemand (dropRowCols drop_meta_cols c2FlightRow) d = false) ∧
    c2OutRow ∈ full_pipeline exDemandSchema exWeatherSchema [c2FlightRow] [exDemandRow]
      [exWeatherRow] ∧
    lookup c2OutRow ("ORIGIN_" ++ "DMD_CNT") = some (Value.int 0) :=
  ⟨by decide, by decide,
    (C2_zero_fill exDemandSchema exWeatherSchema [exDemandRow] [exWeatherRow] c2FlightRow
        [c2FlightRow] "DMD_CNT" (by unfold wfTable; decide) (by unfold wfTable; decide)
        (by unfold schemaSane; decide) (by decide) (by decide) (by decide)).2
      c2OutRow (by decide)⟩

/-! ### Claim C3 — weather columns are never altered after their joins -/

theorem not_mem_demand_attr_of {ds : List ColName} {c : ColName} (h : c ∉ ds) :
    ("ORIGIN_" ++ c) ∉ arpt_demand_attr_cols ds ∧
    ("DEST_" ++ c) ∉ arpt_demand_attr_cols ds := by
  constructor
  · intro hm
    unfold arpt_demand_attr_cols at hm
    rcases List.mem_flatMap.mp hm with ⟨p', hp', hm2⟩
    rcases List.mem_map.mp hm2 with ⟨d, hd, heq⟩
    rcases (by simpa using hp' : p' = "ORIGIN_" ∨ p' = "DEST_") with rfl | rfl
    · exact h ((str_pfx_cancel heq) ▸ (List.mem_filter.mp hd).1)
    · exact dest_ne_origin d c heq
  · intro hm
    unfold arpt_demand_attr_cols at hm
    rcases List.mem_flatMap.mp hm with ⟨p', hp', hm2⟩
    rcases List.mem_map.mp hm2 with ⟨d, hd, heq⟩
    rcases (by simpa using hp' : p' = "ORIGIN_" ∨ p' = "DEST_") with rfl | rfl
    · exact origin_ne_dest d c heq
    · exact h ((str_pfx_cancel heq) ▸ (List.mem_filter.mp hd).1)

/-- C3: for a weather attribute column c (absent from the demand schema and
with no stray weather bucket column), the cleaning stage after the joins —
the zero-fill and the column drop — leaves both ORIGIN_c and DEST_c exactly
as the joins produced them: a (name, value) pair with either prefixed name,
null included, is in the cleaned row exactly when it is in the merged row. -/
theorem C3_weather_untouched (ds ws : List ColName) (ft dt wt : Table) (c : ColName)
    (hc : c ∈ wAttrs (loadSchema (drop_meta_cols ++ ["YEAR"]) ws))
    (hQW : "DT_LOCAL_QTHR" ∉ loadSchema (drop_meta_cols ++ ["YEAR"]) ws)
    (hWD : c ∉ loadSchema (drop_meta_cols ++ ["YEAR"]) ds) :
    ∀ r ∈ nas_flights_mg (loadSchema (drop_meta_cols ++ ["YEAR"]) ds)
        (loadSchema (drop_meta_cols ++ ["YEAR"]) ws) (load_nas_flights ft)
        (load_arpt_demand dt) (load_arpt_weather wt),
      dropRowCols (ad_remove_cols ++ od_remove_cols)
        (fillnaRow (.int 0)
          (arpt_demand_attr_cols (loadSchema (drop_meta_cols ++ ["YEAR"]) ds)) r)
        ∈ full_pipeline ds ws ft dt wt ∧
      ∀ pfx ∈ (["ORIGIN_", "DEST_"] : List String), ∀ v : Cell,
        ((pfx ++ c, v) ∈ dropRowCols (ad_remove_cols ++ od_remove_cols)
          (fillnaRow (.int 0)
            (arpt_demand_attr_cols (loadSchema (drop_meta_cols ++ ["YEAR"]) ds)) r)
        ↔ (pfx ++ c, v) ∈ r) := by
  intro r hr
  have hkc : weatherKeys.contains c = false := mem_attr_not_key hc
  have hcne_hr : c ≠ "DT_LOCAL_HR" := by
    intro e
    rw [e] at hkc
    exact absurd hkc (by decide)
  have hcne_qthr : c ≠ "DT_LOCAL_QTHR" := fun e => hQW (e ▸ mem_wAttrs_sub hc)
  have hnsub := not_mem_demand_attr_of hWD
  have hnrmO := origin_attr_not_removed hcne_qthr hcne_hr
  have hnrmD := dest_attr_not_removed hcne_qthr hcne_hr
  constructor
  · exact List.mem_map_of_mem _ (List.mem_map_of_mem _ hr)
  · intro pfx hpfx v
    have hface : (pfx ++ c) ∉
        arpt_demand_attr_cols (loadSchema (drop_meta_cols ++ ["YEAR"]) ds) ∧
        (pfx ++ c) ∉ ad_remove_cols ++ od_remove_cols := by
      rcases (by simpa using hpfx : pfx = "ORIGIN_" ∨ pfx = "DEST_") with rfl | rfl
      · exact ⟨hnsub.1, hnrmO⟩
      · exact ⟨hnsub.2, hnrmD⟩
    have hcontains : (arpt_demand_attr_cols
        (loadSchema (drop_meta_cols ++ ["YEAR"]) ds)).contains (pfx ++ c) = false :=
      contains_false_of_not_mem hface.1
    constructor
    · intro hm
      have hm1 := (List.mem_filter.mp hm).1
      rcases List.mem_map.mp hm1 with ⟨q, hq, heq⟩
      have hq1 : q.1 = pfx ++ c := by
        have := congrArg Prod.fst heq
        by_cases hcond : ((arpt_demand_attr_cols
            (loadSchema (drop_meta_cols ++ ["YEAR"]) ds)).contains q.1 && q.2.isNone) = true
        · rw [if_pos hcond] at this
          exact this
        · rw [if_neg hcond] at this
          exact this
      rw [if_neg (by simp [hq1, hface.1])] at heq
      rw [heq] at hq
      exact hq
    · intro hm
      refine List.mem_filter.mpr
        ⟨List.mem_map.mpr ⟨(pfx ++ c, v), hm, ?_⟩, by simpa using hface.2⟩
      rw [if_neg (by simp [hface.1])]

/-- The merged (pre-clean) row the four joins produce from the example
tables. -/
def c3MergedRow : Row :=
  [("FL_ID", some (.int 100)), ("ORIGIN", some (.str "JFK")), ("DEST", some (.str "LAX")),
   ("DEP_TIME_DT_LOCAL_QTHR", some (.int 1)), ("ARR_TIME_DT_LOCAL_QTHR", some (.int 2)),
   ("DEP_TIME_DT_LOCAL_HR", some (.int 10)), ("ARR_TIME_DT_LOCAL_HR", some (.int 11)),
   ("DEP_TIME_DT_LOCAL", some (.int 1000)), ("ARR_TIME_DT_LOCAL", some (.int 1100)),
   ("YYYYMM", some (.int 202001)), ("ORIGIN_DMD_CNT", some (.int 7)),
   ("DEST_DMD_CNT", none), ("ORIGIN_TEMP", some (.int 20)), ("DEST_TEMP", none)]

theorem C3_weather_untouched_witness :
    ("TEMP" ∈ wAttrs (loadSchema (drop_meta_cols ++ ["YEAR"]) exWeatherSchema)) ∧
    c3MergedRow ∈ nas_flights_mg (loadSchema (drop_meta_cols ++ ["YEAR"]) exDemandSchema)
      (loadSchema (drop_meta_cols ++ ["YEAR"]) exWeatherSchema)
      (load_nas_flights [exFlightRow]) (load_arpt_demand [exDemandRow])
      (load_arpt_weather [exWeatherRow]) ∧
    ((("ORIGIN_" ++ "TEMP", (some (Value.int 20) : Cell)) ∈
        dropRowCols (ad_remove_cols ++ od_remove_cols)
          (fillnaRow (.int 0)
            (arpt_demand_attr_cols (loadSchema (drop_meta_cols ++ ["YEAR"]) exDemandSchema))
            c3MergedRow))
      ↔ (("ORIGIN_" ++ "TEMP", (some (Value.int 20) : Cell)) ∈ c3MergedRow)) :=
  ⟨by decide, by decide,
    (C3_weather_untouched exDemandSchema exWeatherSchema [exFlightRow] [exDemandRow]
        [exWeatherRow] "TEMP" (by decide) (by decide) (by decide) c3MergedRow
        (by decide)).2 "ORIGIN_" (by decide) (some (Value.int 20))⟩
